import Mathlib

/-!
Verification of the Galcon tick-resolution engine
(`cq_galcon/game/entity.py` and `cq_galcon/game/game.py`).

The Python entity graph (mutable `Fleet` and `Planet` objects linked by
object references) is embedded as an id-arena: fleets and planets live in
total maps keyed by numeric ids, the authoritative `Game.state` list is a
list of typed references, and object identity becomes id equality.  Floats
are modelled by real numbers; `math.dist` and `vectormath` vector length
become `Real.sqrt` of the sum of squared coordinate differences.  Python
exceptions (the `AttributeError` on a missing destination in
`_handle_already_defending_fleets`, the `ValueError` of `_move_fleet`, and
the `ValueError` of `list.remove`) are modelled by `Option`, `none`
signalling the raised exception.
-/

namespace Galcon

open Classical

noncomputable section

/-- Modelled from the spec: the `Team` enumeration of the missing
`cq_galcon/game/constants.py` — a small closed enumeration of team
identifiers including a neutral sentinel (spelled `NEUTREAL` in the
source, which references `Team.NEUTREAL`). -/
inductive Team where
  | NEUTREAL
  | RED
  | BLUE
  deriving DecidableEq

/-- Modelled from the spec: the `MAX_FLEET_SPEED` balance constant of the
missing `constants.py` (per-tick movement speed cap); the spec scenario
fixes it at 5. -/
def MAX_FLEET_SPEED : ℝ := 5

/-- Modelled from the spec: the `MAX_ATTACK_SPEED` balance constant of the
missing `constants.py` (per-tick damage / strength-transfer cap); the spec
scenario fixes it at 3. -/
def MAX_ATTACK_SPEED : ℤ := 3

/-- A 2D point, `entity.py`'s `Position` NamedTuple (floats become ℝ). -/
structure Position where
  x : ℝ
  y : ℝ

/-- Euclidean distance, `Position.distance_to` (`math.dist`). -/
def Position.distance_to (p other : Position) : ℝ :=
  Real.sqrt ((p.x - other.x) ^ 2 + (p.y - other.y) ^ 2)

/-- Fleet ids stand for the identity of Python `Fleet` objects. -/
abbrev FleetId := Nat

/-- Planet ids stand for the identity of Python `Planet` objects. -/
abbrev PlanetId := Nat

/-- The `Fleet` entity of `entity.py`: team, position, integer strength and
an optional destination planet (a reference, here an id). -/
structure Fleet where
  team : Team
  position : Position
  strength : ℤ
  destination : Option PlanetId

/-- The `Planet` entity of `entity.py`: position, production data and the
(always present) reference to its defending fleet. -/
structure Planet where
  position : Position
  production_speed : ℤ
  remaining_until_new_ship : ℤ
  defending_fleet : FleetId

/-- The derived `Planet.size` property: `production_speed + 4`. -/
def Planet.size (p : Planet) : ℤ :=
  p.production_speed + 4

/-- The `MoveCommand` of `entity.py`: fleet to redirect, destination
planet, split flag. -/
structure MoveCommand where
  fleet : FleetId
  destination : PlanetId
  split : Bool

/-- A typed reference, one element of the Python `Game.state` list. -/
inductive EntityRef where
  | fleet (i : FleetId)
  | planet (p : PlanetId)
  deriving DecidableEq

/-- The whole game state: the ordered `Game.state` list plus the arenas
resolving ids to the current field values of the corresponding objects,
and a fresh-id counter for fleets created by departures.  Records of
removed fleets stay readable in the arena, exactly as a removed Python
object stays alive while anything still references it. -/
structure GameState where
  entities : List EntityRef
  fleet : FleetId → Fleet
  planet : PlanetId → Planet
  nextId : FleetId

/-- Overwrite the record of fleet `i` (a field assignment on the object). -/
def updFleet (s : GameState) (i : FleetId) (f : Fleet) : GameState :=
  { s with fleet := fun k => if k = i then f else s.fleet k }

/-- Overwrite the record of planet `p` (a field assignment on the object). -/
def updPlanet (s : GameState) (p : PlanetId) (pl : Planet) : GameState :=
  { s with planet := fun k => if k = p then pl else s.planet k }

/-- The derived `Planet.team` property: the team of the defending fleet
(needs the arena, because `defending_fleet` is a reference). -/
def GameState.planetTeam (s : GameState) (p : PlanetId) : Team :=
  (s.fleet (s.planet p).defending_fleet).team

/-- The `Fleet.can_dock` query of `entity.py`:
`distance(fleet, planet) < planet.size + MAX_FLEET_SPEED`. -/
def Fleet.can_dock (f : Fleet) (p : Planet) : Prop :=
  f.position.distance_to p.position < (p.size : ℝ) + MAX_FLEET_SPEED

/-- The `Game.all_player_fleets` property: fleets of the state list whose
team is not neutral, in list order. -/
def playerFleetIds (s : GameState) : List FleetId :=
  s.entities.filterMap fun e =>
    match e with
    | .fleet i => if (s.fleet i).team ≠ Team.NEUTREAL then some i else none
    | .planet _ => none

/-- The `Game.all_player_planets` property: planets of the state list whose
(derived) team is not neutral, in list order. -/
def playerPlanetIds (s : GameState) : List PlanetId :=
  s.entities.filterMap fun e =>
    match e with
    | .planet p => if s.planetTeam p ≠ Team.NEUTREAL then some p else none
    | .fleet _ => none

/-- Phase 1, `Game._handle_commands`: each command overwrites its fleet's
destination. -/
def handle_commands (s : GameState) : List MoveCommand → GameState
  | [] => s
  | c :: rest =>
      handle_commands
        (updFleet s c.fleet { s.fleet c.fleet with destination := some c.destination })
        rest

/-- Loop body of `Game._handle_already_defending_fleets`.  The Python code
reads `fleet.destination.defending_fleet` without a `None` guard, so a
fleet whose destination is `None` raises `AttributeError`: modelled by
`none`. -/
def alreadyDefendingGo : GameState → List FleetId → Option GameState
  | s, [] => some s
  | s, i :: rest =>
      match (s.fleet i).destination with
      | none => none
      | some q =>
          alreadyDefendingGo
            (if (s.planet q).defending_fleet = i
              then updFleet s i { s.fleet i with destination := none }
              else s)
            rest

/-- Phase 2, `Game._handle_already_defending_fleets`: clear the destination
of every active fleet that already garrisons its own destination. -/
def handle_already_defending_fleets (s : GameState) : Option GameState :=
  alreadyDefendingGo s (playerFleetIds s)

/-- The `Game._handle_departure` helper: spawn a new fleet at the origin
planet with the garrison's full strength (or `ceil(strength / 2)` when
`split`), owned by the origin's (derived) team, headed to `dest`, and
subtract the spawned strength from the garrison.  Returns the new state
and the id of the created fleet. -/
def handle_departure (s : GameState) (origin : PlanetId) (dest : PlanetId)
    (split : Bool) : GameState × FleetId :=
  let g := (s.planet origin).defending_fleet
  let strenght_of_new_fleet : ℤ :=
    if split then ⌈((s.fleet g).strength : ℚ) / 2⌉ else (s.fleet g).strength
  let j := s.nextId
  let s1 : GameState :=
    { s with
      fleet := fun k =>
        if k = j then
          { team := (s.fleet g).team
            position := (s.planet origin).position
            strength := strenght_of_new_fleet
            destination := some dest }
        else s.fleet k
      nextId := j + 1 }
  (updFleet s1 g { s1.fleet g with strength := (s1.fleet g).strength - strenght_of_new_fleet }, j)

/-- Loop of `Game._handle_departures` over a snapshot of player planets:
skip planets whose garrison has no destination or whose garrison's
destination is the planet itself, otherwise spawn (never with split). -/
def departuresGo : GameState → List PlanetId → GameState × List FleetId
  | s, [] => (s, [])
  | s, pid :: rest =>
      match (s.fleet (s.planet pid).defending_fleet).destination with
      | none => departuresGo s rest
      | some q =>
          if q = pid then departuresGo s rest
          else
            let r := handle_departure s pid q false
            let r2 := departuresGo r.1 rest
            (r2.1, r.2 :: r2.2)

/-- Phase 3, `Game._handle_departures`: returns the updated state and the
list of created fleets (they join `Game.state` only at the end of `step`). -/
def handle_departures (s : GameState) : GameState × List FleetId :=
  departuresGo s (playerPlanetIds s)

/-- The `Game._move_fleet` helper.  A fleet without a destination raises
`ValueError` (modelled by `none`).  Otherwise the new position is computed
exactly as in the source: `toward = dest - pos`,
`max_speed = min(toward.length - dest.size, MAX_FLEET_SPEED)`,
`newpos = toward.normalize() * max_speed`, and the fleet's position is set
to `newpos` — note the source sets the position to the displacement vector
itself, without adding the current position back. -/
def move_fleet (s : GameState) (i : FleetId) : Option GameState :=
  match (s.fleet i).destination with
  | none => none
  | some q =>
      let f := s.fleet i
      let p := s.planet q
      let towardx := p.position.x - f.position.x
      let towardy := p.position.y - f.position.y
      let len := Real.sqrt (towardx ^ 2 + towardy ^ 2)
      let max_speed := min (len - (p.size : ℝ)) MAX_FLEET_SPEED
      some (updFleet s i
        { f with position := ⟨towardx / len * max_speed, towardy / len * max_speed⟩ })

/-- Loop of `Game._handle_movement`: skip fleets without a destination and
fleets that can already dock, move the rest. -/
def movementGo : GameState → List FleetId → Option GameState
  | s, [] => some s
  | s, i :: rest =>
      match (s.fleet i).destination with
      | none => movementGo s rest
      | some q =>
          if (s.fleet i).can_dock (s.planet q) then movementGo s rest
          else
            match move_fleet s i with
            | none => none
            | some s' => movementGo s' rest

/-- Phase 4, `Game._handle_movement`. -/
def handle_movement (s : GameState) : Option GameState :=
  movementGo s (playerFleetIds s)

/-- Body of one `Game._handle_reinforce` iteration, after its three guards
have passed: add `min(strength, MAX_ATTACK_SPEED)` to the destination's
garrison, then subtract it from the fleet (the two sequential `+=`/`-=`
statements of the source, faithfully ordered so self-aliasing behaves as
in Python). -/
def reinforceHit (s : GameState) (i : FleetId) (q : PlanetId) : GameState :=
  let v := min (s.fleet i).strength MAX_ATTACK_SPEED
  let d := (s.planet q).defending_fleet
  let s1 := updFleet s d { s.fleet d with strength := (s.fleet d).strength + v }
  updFleet s1 i { s1.fleet i with strength := (s1.fleet i).strength - v }

/-- Loop of `Game._handle_reinforce`: an active fleet with a destination of
its own team that it can dock at transfers
`min(strength, MAX_ATTACK_SPEED)` to the destination's garrison; a fleet
whose strength reaches exactly 0 goes to the merged (removed) list,
otherwise to the merging list. -/
def reinforceGo : GameState → List FleetId → GameState × List FleetId × List FleetId
  | s, [] => (s, [], [])
  | s, i :: rest =>
      match (s.fleet i).destination with
      | none => reinforceGo s rest
      | some q =>
          if (s.fleet i).team ≠ s.planetTeam q then reinforceGo s rest
          else if ¬ (s.fleet i).can_dock (s.planet q) then reinforceGo s rest
          else
            let s2 := reinforceHit s i q
            let r := reinforceGo s2 rest
            if (s2.fleet i).strength = 0
              then (r.1, r.2.1, i :: r.2.2)
              else (r.1, i :: r.2.1, r.2.2)

/-- Phase 5, `Game._handle_reinforce`: returns the updated state, the
still-merging list and the merged (to-remove) list. -/
def handle_reinforce (s : GameState) : GameState × List FleetId × List FleetId :=
  reinforceGo s (playerFleetIds s)

/-- Body of one `Game._handle_combat` iteration, after its two guards have
passed: both damage values are read before any subtraction, the two
subtractions happen in source order, a garrison at exactly 0 is clamped
back to 1, a garrison below 0 is appended to the destroyed list and
replaced by the attacker, and an attacker at 0 or below is appended to the
destroyed list.  Every garrison access re-reads
`fleet.destination.defending_fleet` through the planet, as the source
attribute chains do.  Returns the updated state and this iteration's
additions to the destroyed list. -/
def combatHit (s : GameState) (i : FleetId) (q : PlanetId) : GameState × List FleetId :=
  let ddmg := min (s.fleet i).strength MAX_ATTACK_SPEED
  let admg := min (s.fleet (s.planet q).defending_fleet).strength MAX_ATTACK_SPEED
  let d := (s.planet q).defending_fleet
  let s1 := updFleet s d { s.fleet d with strength := (s.fleet d).strength - ddmg }
  let s2 := updFleet s1 i { s1.fleet i with strength := (s1.fleet i).strength - admg }
  let s3 :=
    if (s2.fleet (s2.planet q).defending_fleet).strength = 0
      then updFleet s2 (s2.planet q).defending_fleet
        { s2.fleet (s2.planet q).defending_fleet with strength := 1 }
      else s2
  let capture := decide ((s3.fleet (s3.planet q).defending_fleet).strength < 0)
  let oldDefender := (s3.planet q).defending_fleet
  let s4 := if capture then updPlanet s3 q { s3.planet q with defending_fleet := i } else s3
  let dead := decide ((s4.fleet i).strength ≤ 0)
  (s4, (if capture then [oldDefender] else []) ++ (if dead then [i] else []))

/-- Loop of `Game._handle_combat`: every active fleet with a destination it
can dock at (the source checks no team!) exchanges capped damage with the
destination's garrison; on a draw the garrison keeps strength 1; a garrison
driven negative is destroyed and replaced by the attacker; an attacker at
strength 0 or below is destroyed. -/
def combatGo : GameState → List FleetId → GameState × List FleetId
  | s, [] => (s, [])
  | s, i :: rest =>
      match (s.fleet i).destination with
      | none => combatGo s rest
      | some q =>
          if ¬ (s.fleet i).can_dock (s.planet q) then combatGo s rest
          else
            let h := combatHit s i q
            let r := combatGo h.1 rest
            (r.1, h.2 ++ r.2)

/-- Phase 6, `Game._handle_combat`: returns the updated state and the
destroyed (to-remove) list. -/
def handle_combat (s : GameState) : GameState × List FleetId :=
  combatGo s (playerFleetIds s)

/-- Loop of `Game._handle_production`: decrement each active planet's
countdown; at 0 or below, reset it to `production_speed` and add 1 to the
garrison's strength. -/
def productionGo : GameState → List PlanetId → GameState
  | s, [] => s
  | s, pid :: rest =>
      let s1 := updPlanet s pid
        { s.planet pid with
          remaining_until_new_ship := (s.planet pid).remaining_until_new_ship - 1 }
      if (s1.planet pid).remaining_until_new_ship ≤ 0 then
        let s2 := updPlanet s1 pid
          { s1.planet pid with remaining_until_new_ship := (s1.planet pid).production_speed }
        let d := (s2.planet pid).defending_fleet
        productionGo (updFleet s2 d { s2.fleet d with strength := (s2.fleet d).strength + 1 }) rest
      else productionGo s1 rest

/-- Phase 7, `Game._handle_production`. -/
def handle_production (s : GameState) : GameState :=
  productionGo s (playerPlanetIds s)

/-- Remove the first occurrence of a reference from the state list
(`list.remove` after a successful membership search). -/
def eraseRef : List EntityRef → EntityRef → List EntityRef
  | [], _ => []
  | r :: rest, t => if r = t then rest else r :: eraseRef rest t

/-- The removal loop at the end of `Game.step`: `state.remove(fleet)` for
each fleet to remove; a fleet absent from the list raises `ValueError`
(modelled by `none`). -/
def removeFleets : GameState → List FleetId → Option GameState
  | s, [] => some s
  | s, i :: rest =>
      if EntityRef.fleet i ∈ s.entities
        then removeFleets { s with entities := eraseRef s.entities (.fleet i) } rest
        else none

/-- The complete `Game.step(commands)` tick: the seven phases in source
order, then the final assembly (append created fleets, remove merged and
destroyed fleets).  `none` means the tick raised an exception. -/
def step (s : GameState) (commands : List MoveCommand) : Option GameState :=
  let sA := handle_commands s commands
  match handle_already_defending_fleets sA with
  | none => none
  | some sB =>
      let dep := handle_departures sB
      match handle_movement dep.1 with
      | none => none
      | some sD =>
          let rf := handle_reinforce sD
          let cb := handle_combat rf.1
          let sG := handle_production cb.1
          let sH := { sG with entities := sG.entities ++ dep.2.map EntityRef.fleet }
          removeFleets sH (rf.2.2 ++ cb.2)

/-! ## Generic lookup lemmas for the arena updates -/

@[simp]
theorem updFleet_fleet_self (s : GameState) (i : FleetId) (f : Fleet) :
    (updFleet s i f).fleet i = f := by
  simp [updFleet]

theorem updFleet_fleet_ne (s : GameState) (i j : FleetId) (f : Fleet) (h : j ≠ i) :
    (updFleet s i f).fleet j = s.fleet j := by
  simp [updFleet, h]

@[simp]
theorem updFleet_planet (s : GameState) (i : FleetId) (f : Fleet) :
    (updFleet s i f).planet = s.planet := rfl

@[simp]
theorem updFleet_entities (s : GameState) (i : FleetId) (f : Fleet) :
    (updFleet s i f).entities = s.entities := rfl

@[simp]
theorem updFleet_nextId (s : GameState) (i : FleetId) (f : Fleet) :
    (updFleet s i f).nextId = s.nextId := rfl

@[simp]
theorem updPlanet_planet_self (s : GameState) (p : PlanetId) (pl : Planet) :
    (updPlanet s p pl).planet p = pl := by
  simp [updPlanet]

theorem updPlanet_planet_ne (s : GameState) (p r : PlanetId) (pl : Planet) (h : r ≠ p) :
    (updPlanet s p pl).planet r = s.planet r := by
  simp [updPlanet, h]

@[simp]
theorem updPlanet_fleet (s : GameState) (p : PlanetId) (pl : Planet) :
    (updPlanet s p pl).fleet = s.fleet := rfl

@[simp]
theorem updPlanet_entities (s : GameState) (p : PlanetId) (pl : Planet) :
    (updPlanet s p pl).entities = s.entities := rfl

@[simp]
theorem updPlanet_nextId (s : GameState) (p : PlanetId) (pl : Planet) :
    (updPlanet s p pl).nextId = s.nextId := rfl

/-! ## Concrete distance evaluations -/

theorem distance_to_self (p : Position) : p.distance_to p = 0 := by
  simp [Position.distance_to]

theorem distance_to_horizontal (a b y : ℝ) :
    Position.distance_to ⟨a, y⟩ ⟨b, y⟩ = |a - b| := by
  simp [Position.distance_to, Real.sqrt_sq_eq_abs]

theorem sqrt_sixteenhundred : Real.sqrt 1600 = 40 := by
  rw [show (1600 : ℝ) = 40 ^ 2 by norm_num, Real.sqrt_sq (by norm_num)]

/-! ## Claim C1 -/

/-- An active fleet holding position (destination `None`), as placed by
game initialization and after phase 2 clears an arrived fleet. -/
def fleetC1 : Fleet :=
  { team := .RED, position := ⟨0, 0⟩, strength := 10, destination := none }

/-- A placeholder planet for the C1 arena (never consulted by the phase). -/
def planetC1 : Planet :=
  { position := ⟨0, 0⟩, production_speed := 1, remaining_until_new_ship := 1,
    defending_fleet := 0 }

/-- The C1 state: a single active fleet, docked (null destination). -/
def sC1 : GameState :=
  { entities := [.fleet 0]
    fleet := fun _ => fleetC1
    planet := fun _ => planetC1
    nextId := 1 }

/-- Claim C1: the already-arrived correction is claimed to leave an active
fleet with a null destination unchanged and complete without error.  The
source instead dereferences `fleet.destination.defending_fleet` with no
`None` guard, so the phase raises `AttributeError` (modelled `none`) on
this state — which is exactly the shape of the initial game state. -/
theorem already_arrived_crashes_on_null_destination :
    (sC1.fleet 0).destination = none ∧ (sC1.fleet 0).team ≠ Team.NEUTREAL ∧
    EntityRef.fleet 0 ∈ sC1.entities ∧
    handle_already_defending_fleets sC1 = none :=
  ⟨rfl, by decide, by decide, rfl⟩

/-! ## Claim C2 -/

/-- A fleet at (0, 30) ordered to the planet of `planetC2` at (40, 30). -/
def fleetC2 : Fleet :=
  { team := .RED, position := ⟨0, 30⟩, strength := 10, destination := some 0 }

/-- A size-4 planet at (40, 30). -/
def planetC2 : Planet :=
  { position := ⟨40, 30⟩, production_speed := 0, remaining_until_new_ship := 1,
    defending_fleet := 1 }

/-- The C2 state: one active fleet 40 units from its destination. -/
def sC2 : GameState :=
  { entities := [.fleet 0, .planet 0]
    fleet := fun _ => fleetC2
    planet := fun _ => planetC2
    nextId := 1 }

theorem c2_cannot_dock : ¬ (sC2.fleet 0).can_dock (sC2.planet 0) := by
  show ¬ (Position.distance_to ⟨0, 30⟩ ⟨40, 30⟩ < ((4 : ℤ) : ℝ) + MAX_FLEET_SPEED)
  rw [distance_to_horizontal, MAX_FLEET_SPEED]
  norm_num

/-- Claim C2: the movement phase is claimed to advance the fleet from its
current position toward the destination (here from (0, 30) to (5, 30)),
never increasing its distance to the destination.  The source forgets to
add the current position back (`fleet.position = Position(newpos.x,
newpos.y)` where `newpos` is only the scaled direction vector), so the
fleet at (0, 30) ends up at (5, 0) — not at (5, 30) — and its distance to
the destination grows from 40 to √2125. -/
theorem movement_teleports_toward_origin :
    (handle_movement sC2).elim False fun s' =>
      (s'.fleet 0).position = ⟨5, 0⟩ ∧
      Position.mk 5 0 ≠ ⟨0 + 5, 30⟩ ∧
      Position.distance_to (sC2.fleet 0).position (sC2.planet 0).position
        < Position.distance_to (s'.fleet 0).position (sC2.planet 0).position := by
  have hd : (sC2.fleet 0).destination = some 0 := rfl
  show (movementGo sC2 [0]).elim False _
  simp only [movementGo, hd]
  rw [if_neg c2_cannot_dock]
  simp only [move_fleet, hd]
  have hpos : ((updFleet sC2 0
      { (sC2.fleet 0) with position :=
        ⟨((sC2.planet 0).position.x - (sC2.fleet 0).position.x) /
            Real.sqrt (((sC2.planet 0).position.x - (sC2.fleet 0).position.x) ^ 2 +
              ((sC2.planet 0).position.y - (sC2.fleet 0).position.y) ^ 2) *
            min (Real.sqrt (((sC2.planet 0).position.x - (sC2.fleet 0).position.x) ^ 2 +
              ((sC2.planet 0).position.y - (sC2.fleet 0).position.y) ^ 2) -
              ((sC2.planet 0).size : ℝ)) MAX_FLEET_SPEED,
          ((sC2.planet 0).position.y - (sC2.fleet 0).position.y) /
            Real.sqrt (((sC2.planet 0).position.x - (sC2.fleet 0).position.x) ^ 2 +
              ((sC2.planet 0).position.y - (sC2.fleet 0).position.y) ^ 2) *
            min (Real.sqrt (((sC2.planet 0).position.x - (sC2.fleet 0).position.x) ^ 2 +
              ((sC2.planet 0).position.y - (sC2.fleet 0).position.y) ^ 2) -
              ((sC2.planet 0).size : ℝ)) MAX_FLEET_SPEED⟩ }).fleet 0).position = ⟨5, 0⟩ := by
    rw [updFleet_fleet_self]
    show Position.mk _ _ = _
    simp only [sC2, fleetC2, planetC2, Planet.size, Position.mk.injEq, MAX_FLEET_SPEED]
    norm_num [sqrt_sixteenhundred, min_def]
  refine ⟨hpos, ?_, ?_⟩
  · simp only [ne_eq, Position.mk.injEq]
    norm_num
  · have hrw := congrArg
      (fun z : Position => Position.distance_to z (sC2.planet 0).position) hpos
    refine lt_of_lt_of_eq ?_ hrw.symm
    show Position.distance_to ⟨0, 30⟩ ⟨40, 30⟩ < Position.distance_to ⟨5, 0⟩ ⟨40, 30⟩
    rw [distance_to_horizontal]
    simp only [Position.distance_to]
    norm_num
    rw [show (40 : ℝ) = Real.sqrt 1600 from sqrt_sixteenhundred.symm]
    exact Real.sqrt_lt_sqrt (by norm_num) (by norm_num)

/-! ## Claim C3 -/

/-- A docked fleet of team RED attacking in combat. -/
def fleetC3a : Fleet :=
  { team := .RED, position := ⟨0, 0⟩, strength := 2, destination := some 0 }

/-- The same-team (RED) garrison of the destination planet. -/
def fleetC3d : Fleet :=
  { team := .RED, position := ⟨0, 0⟩, strength := 10, destination := none }

/-- The destination planet of the C3 scenario, garrisoned by fleet 1. -/
def planetC3 : Planet :=
  { position := ⟨0, 0⟩, production_speed := 1, remaining_until_new_ship := 1,
    defending_fleet := 1 }

/-- The C3 state: a RED fleet docked at a RED planet. -/
def sC3 : GameState :=
  { entities := [.planet 0, .fleet 0, .fleet 1]
    fleet := fun k => if k = 0 then fleetC3a else fleetC3d
    planet := fun _ => planetC3
    nextId := 2 }

theorem c3_can_dock : (sC3.fleet 0).can_dock (sC3.planet 0) := by
  show Position.distance_to ⟨0, 0⟩ ⟨0, 0⟩ < ((5 : ℤ) : ℝ) + MAX_FLEET_SPEED
  rw [distance_to_self, MAX_FLEET_SPEED]
  norm_num

/-- Claim C3: the combat phase is claimed to leave a docked fleet and its
destination's garrison untouched when they are on the same team.  The
source's `_handle_combat` never compares teams, so the RED fleet (strength
2) and the RED garrison (strength 10) exchange damage anyway: the garrison
drops to 8, the fleet drops to −1 and is destroyed. -/
theorem combat_hits_same_team_garrison :
    (sC3.fleet 0).team = sC3.planetTeam 0 ∧
    (sC3.fleet 0).can_dock (sC3.planet 0) ∧
    (handle_combat sC3).2 = [0] ∧
    ((handle_combat sC3).1.fleet 1).strength = 8 ∧
    ((handle_combat sC3).1.fleet 0).strength = -1 := by
  have hd : (sC3.fleet 0).destination = some 0 := rfl
  have hcb : handle_combat sC3 =
      ((combatGo (combatHit sC3 0 0).1 [1]).1, [0]) := by
    show combatGo sC3 [0, 1] = _
    simp only [combatGo, hd]
    rw [if_neg (not_not_intro c3_can_dock)]
    rfl
  refine ⟨rfl, c3_can_dock, ?_, ?_, ?_⟩ <;> rw [hcb] <;> rfl

/-! ## Claim C4 -/

theorem distance_nought_four : Position.distance_to ⟨0, 0⟩ ⟨4, 0⟩ = 4 := by
  rw [distance_to_horizontal]
  norm_num

/-- The emptied garrison of planet 0, still ordered to planet 1. -/
def fleetC4g : Fleet :=
  { team := .RED, position := ⟨0, 0⟩, strength := 0, destination := some 1 }

/-- The neutral garrison of planet 1 (neutral fleets are skipped by every
active-fleet loop, so phase 2 does not crash on its null destination). -/
def fleetC4d : Fleet :=
  { team := .NEUTREAL, position := ⟨4, 0⟩, strength := 10, destination := none }

/-- Filler record for unallocated fleet ids of the C4 arena. -/
def fleetFiller : Fleet :=
  { team := .NEUTREAL, position := ⟨0, 0⟩, strength := 0, destination := none }

/-- Planet 0 of the C4 scenario, garrisoned by fleet 0. -/
def planetC4q : Planet :=
  { position := ⟨0, 0⟩, production_speed := 5, remaining_until_new_ship := 5,
    defending_fleet := 0 }

/-- Planet 1 of the C4 scenario (neutral, garrisoned by fleet 1). -/
def planetC4p : Planet :=
  { position := ⟨4, 0⟩, production_speed := 0, remaining_until_new_ship := 1,
    defending_fleet := 1 }

/-- The C4 state: planet 0's RED garrison (strength 0, destination planet
1, dockable at 4 < 4 + 5) will attack planet 1's neutral garrison, lose,
and be removed — while staying planet 0's `defending_fleet`. -/
def sC4 : GameState :=
  { entities := [.planet 0, .fleet 0, .planet 1, .fleet 1]
    fleet := fun k => if k = 0 then fleetC4g else if k = 1 then fleetC4d else fleetFiller
    planet := fun k => if k = 0 then planetC4q else planetC4p
    nextId := 2 }

theorem c4_can_dock :
    ((handle_departures sC4).1.fleet 0).can_dock ((handle_departures sC4).1.planet 1) := by
  show Position.distance_to ⟨0, 0⟩ ⟨4, 0⟩ < ((4 : ℤ) : ℝ) + MAX_FLEET_SPEED
  rw [distance_nought_four, MAX_FLEET_SPEED]
  norm_num

theorem c4_movement : handle_movement (handle_departures sC4).1 =
    some ((handle_departures sC4).1) := by
  show movementGo _ [0] = _
  have hd : ((handle_departures sC4).1.fleet 0).destination = some 1 := rfl
  simp only [movementGo, hd]
  rw [if_pos c4_can_dock]

theorem c4_reinforce : handle_reinforce ((handle_departures sC4).1) =
    ((handle_departures sC4).1, [], []) := rfl

theorem c4_combat : handle_combat ((handle_departures sC4).1) =
    ((combatHit (handle_departures sC4).1 0 1).1, [0]) := by
  show combatGo _ [0] = _
  have hd : ((handle_departures sC4).1.fleet 0).destination = some 1 := rfl
  simp only [combatGo, hd]
  rw [if_neg (not_not_intro c4_can_dock)]
  rfl

/-- Claim C4: after every step, every planet's defending fleet is claimed
to be a currently-live member of the entity collection.  On the C4 state
the tick completes normally, fleet 0 (planet 0's garrison, which departed,
attacked planet 1 and fell to strength −3) is removed from the entity
collection — yet planet 0's `defending_fleet` still references it, a
dangling garrison. -/
theorem step_leaves_dangling_defender :
    (step sC4 []).elim False fun s' =>
      (s'.planet 0).defending_fleet = 0 ∧ EntityRef.fleet 0 ∉ s'.entities ∧
      EntityRef.planet 0 ∈ s'.entities := by
  have h2 : handle_already_defending_fleets (handle_commands sC4 []) = some sC4 := rfl
  simp only [step, h2, c4_movement, c4_reinforce, c4_combat]
  exact ⟨rfl, by decide, by decide⟩

/-! ## Claim C5 -/

/-- Claim C5: one-on-one combat resolution.  For a single docked attacker
`a` of strength `A` (1 ≤ A ≤ MAX_ATTACK_SPEED) against the destination's
garrison `dId` of strength `B` ≥ 1 on a different team: the garrison's
strength becomes `B − A` (clamped to 1 exactly on a draw); a garrison
driven negative is destroyed and the attacker becomes the planet's new
defending fleet; the attacker's strength becomes `A − min(B,
MAX_ATTACK_SPEED)` and the attacker is destroyed iff that is ≤ 0. -/
theorem combat_one_on_one_resolution (s : GameState) (a dId : FleetId) (q : PlanetId)
    (A B : ℤ)
    (hsnap : playerFleetIds s = [a])
    (hdst : (s.fleet a).destination = some q)
    (hdock : (s.fleet a).can_dock (s.planet q))
    (hdef : (s.planet q).defending_fleet = dId)
    (hne : dId ≠ a)
    (hteam : (s.fleet dId).team ≠ (s.fleet a).team)
    (hA : (s.fleet a).strength = A) (hB : (s.fleet dId).strength = B)
    (hA1 : 1 ≤ A) (hA3 : A ≤ MAX_ATTACK_SPEED) (hB1 : 1 ≤ B) :
    ((handle_combat s).1.fleet a).strength = A - min B MAX_ATTACK_SPEED ∧
    (a ∈ (handle_combat s).2 ↔ A - min B MAX_ATTACK_SPEED ≤ 0) ∧
    (0 < B - A → ((handle_combat s).1.fleet dId).strength = B - A ∧
      ((handle_combat s).1.planet q).defending_fleet = dId ∧ dId ∉ (handle_combat s).2) ∧
    (B - A = 0 → ((handle_combat s).1.fleet dId).strength = 1 ∧
      ((handle_combat s).1.planet q).defending_fleet = dId ∧ dId ∉ (handle_combat s).2) ∧
    (B - A < 0 → dId ∈ (handle_combat s).2 ∧
      ((handle_combat s).1.planet q).defending_fleet = a) := by
  have hna : a ≠ dId := hne.symm
  have hminA : min A MAX_ATTACK_SPEED = A := min_eq_left hA3
  simp only [handle_combat, hsnap, combatGo, hdst]
  rw [if_neg (not_not_intro hdock)]
  rcases lt_trichotomy (B - A) 0 with hlt | heq | hgt
  · have h0 : ¬ (B - A = 0) := by omega
    simp only [combatGo, List.append_nil, combatHit, hdef, hA, hB, hminA,
      updFleet_planet, updFleet_fleet_self, updFleet_fleet_ne _ _ _ _ hna,
      updFleet_fleet_ne _ _ _ _ hne, updPlanet_fleet, decide_eq_true_eq,
      if_neg h0, if_pos hlt, updPlanet_planet_self]
    by_cases hdead : A - B ⊓ MAX_ATTACK_SPEED ≤ 0
    · simp only [if_pos hdead]
      exact ⟨trivial, by simp [hdead], fun h' => absurd h' (by omega),
        fun h' => absurd h' h0, fun h' => ⟨by simp, trivial⟩⟩
    · simp only [if_neg hdead]
      exact ⟨trivial, by simp [hna, hdead], fun h' => absurd h' (by omega),
        fun h' => absurd h' h0, fun h' => ⟨by simp, trivial⟩⟩
  · have hc : ¬ ((1 : ℤ) < 0) := by omega
    simp only [combatGo, List.append_nil, combatHit, hdef, hA, hB, hminA,
      updFleet_planet, updFleet_fleet_self, updFleet_fleet_ne _ _ _ _ hna,
      updFleet_fleet_ne _ _ _ _ hne, updPlanet_fleet, decide_eq_true_eq,
      if_pos heq, if_neg hc]
    by_cases hdead : A - B ⊓ MAX_ATTACK_SPEED ≤ 0
    · simp only [if_pos hdead]
      exact ⟨trivial, by simp [hdead], fun h' => absurd h' (by omega),
        fun h' => ⟨trivial, by simp [hne]⟩, fun h' => absurd h' (by omega)⟩
    · simp only [if_neg hdead]
      exact ⟨trivial, by simp [hna, hdead], fun h' => absurd h' (by omega),
        fun h' => ⟨trivial, by simp [hne]⟩, fun h' => absurd h' (by omega)⟩
  · have h0 : ¬ (B - A = 0) := by omega
    have hc : ¬ (B - A < 0) := by omega
    simp only [combatGo, List.append_nil, combatHit, hdef, hA, hB, hminA,
      updFleet_planet, updFleet_fleet_self, updFleet_fleet_ne _ _ _ _ hna,
      updFleet_fleet_ne _ _ _ _ hne, updPlanet_fleet, decide_eq_true_eq,
      if_neg h0, if_neg hc]
    by_cases hdead : A - B ⊓ MAX_ATTACK_SPEED ≤ 0
    · simp only [if_pos hdead]
      exact ⟨trivial, by simp [hdead], fun h' => ⟨trivial, by simp [hne]⟩,
        fun h' => absurd h' h0, fun h' => absurd h' hc⟩
    · simp only [if_neg hdead]
      exact ⟨trivial, by simp [hna, hdead], fun h' => ⟨trivial, by simp [hne]⟩,
        fun h' => absurd h' h0, fun h' => absurd h' hc⟩

/-- Attacker of the C5 witness scenario: strength 2, docked at planet 0. -/
def fleetW5a : Fleet :=
  { team := .RED, position := ⟨0, 0⟩, strength := 2, destination := some 0 }

/-- Neutral garrison of strength 5 for the C5 witness scenario. -/
def fleetW5d : Fleet :=
  { team := .NEUTREAL, position := ⟨0, 0⟩, strength := 5, destination := none }

/-- Planet of the C5 witness scenario, garrisoned by fleet 1. -/
def planetW5 : Planet :=
  { position := ⟨0, 0⟩, production_speed := 1, remaining_until_new_ship := 1,
    defending_fleet := 1 }

/-- The C5 witness state: one active attacker against a neutral garrison. -/
def sW5 : GameState :=
  { entities := [.planet 0, .fleet 0, .fleet 1]
    fleet := fun k => if k = 0 then fleetW5a else fleetW5d
    planet := fun _ => planetW5
    nextId := 2 }

theorem w5_can_dock : (sW5.fleet 0).can_dock (sW5.planet 0) := by
  show Position.distance_to ⟨0, 0⟩ ⟨0, 0⟩ < ((5 : ℤ) : ℝ) + MAX_FLEET_SPEED
  rw [distance_to_self, MAX_FLEET_SPEED]
  norm_num

/-- Witness for C5 at A = 2, B = 5: the attacker drops to 2 − 3 = −1 and
is destroyed, the garrison keeps strength 5 − 2 = 3 and its planet. -/
theorem combat_one_on_one_resolution_witness :
    playerFleetIds sW5 = [0] ∧ (sW5.fleet 0).strength = 2 ∧
    (sW5.fleet 1).strength = 5 ∧ (sW5.fleet 1).team ≠ (sW5.fleet 0).team ∧
    (((handle_combat sW5).1.fleet 0).strength = 2 - min 5 MAX_ATTACK_SPEED ∧
    (0 ∈ (handle_combat sW5).2 ↔ 2 - min 5 MAX_ATTACK_SPEED ≤ 0) ∧
    ((0 : ℤ) < 5 - 2 → ((handle_combat sW5).1.fleet 1).strength = 5 - 2 ∧
      ((handle_combat sW5).1.planet 0).defending_fleet = 1 ∧ 1 ∉ (handle_combat sW5).2) ∧
    ((5 : ℤ) - 2 = 0 → ((handle_combat sW5).1.fleet 1).strength = 1 ∧
      ((handle_combat sW5).1.planet 0).defending_fleet = 1 ∧ 1 ∉ (handle_combat sW5).2) ∧
    ((5 : ℤ) - 2 < 0 → 1 ∈ (handle_combat sW5).2 ∧
      ((handle_combat sW5).1.planet 0).defending_fleet = 0)) :=
  ⟨rfl, rfl, rfl, by decide,
    combat_one_on_one_resolution sW5 0 1 0 2 5 rfl rfl w5_can_dock rfl
      (by decide) (by decide) rfl rfl (by decide) (by decide) (by decide)⟩

/-! ## Claim C6 -/

/-- Claim C6: for an active docked fleet whose team matches its
destination's team, the reinforcement phase transfers exactly
`min(fleet.strength, MAX_ATTACK_SPEED)` from the fleet to the destination's
garrison, conserves the sum of the two strengths, and marks the fleet for
removal iff its strength is exactly 0 after the transfer. -/
theorem reinforce_transfer_conserves_strength (s : GameState) (i dId : FleetId)
    (q : PlanetId) (S D : ℤ)
    (hsnap : playerFleetIds s = [i])
    (hdst : (s.fleet i).destination = some q)
    (hteam : (s.fleet i).team = s.planetTeam q)
    (hdock : (s.fleet i).can_dock (s.planet q))
    (hdef : (s.planet q).defending_fleet = dId)
    (hne : dId ≠ i)
    (hS : (s.fleet i).strength = S) (hD : (s.fleet dId).strength = D) :
    ((handle_reinforce s).1.fleet dId).strength = D + min S MAX_ATTACK_SPEED ∧
    ((handle_reinforce s).1.fleet i).strength = S - min S MAX_ATTACK_SPEED ∧
    ((handle_reinforce s).1.fleet i).strength + ((handle_reinforce s).1.fleet dId).strength
      = S + D ∧
    (i ∈ (handle_reinforce s).2.2 ↔ ((handle_reinforce s).1.fleet i).strength = 0) ∧
    (handle_reinforce s).2.1 ++ (handle_reinforce s).2.2 = [i] := by
  have hni : i ≠ dId := hne.symm
  simp only [handle_reinforce, hsnap, reinforceGo, hdst]
  rw [if_neg (not_not_intro hteam), if_neg (not_not_intro hdock)]
  simp only [reinforceGo, reinforceHit, hdef, hS, hD,
    updFleet_planet, updFleet_fleet_self, updFleet_fleet_ne _ _ _ _ hni,
    updFleet_fleet_ne _ _ _ _ hne]
  by_cases hm : S - S ⊓ MAX_ATTACK_SPEED = 0
  · simp only [if_pos hm, updFleet_planet, updFleet_fleet_self,
      updFleet_fleet_ne _ _ _ _ hni, updFleet_fleet_ne _ _ _ _ hne]
    refine ⟨trivial, trivial, by omega, ?_, by simp⟩
    simp [hm]
  · simp only [if_neg hm, updFleet_planet, updFleet_fleet_self,
      updFleet_fleet_ne _ _ _ _ hni, updFleet_fleet_ne _ _ _ _ hne]
    refine ⟨trivial, trivial, by omega, ?_, by simp⟩
    simp [hm]

/-- Reinforcing fleet of the C6 witness: strength 5, docked at planet 0. -/
def fleetW6i : Fleet :=
  { team := .RED, position := ⟨0, 0⟩, strength := 5, destination := some 0 }

/-- RED garrison of strength 10 for the C6 witness (not itself iterated:
only fleet 0 appears in the state list). -/
def fleetW6d : Fleet :=
  { team := .RED, position := ⟨0, 0⟩, strength := 10, destination := none }

/-- Planet of the C6 witness, garrisoned by fleet 1. -/
def planetW6 : Planet :=
  { position := ⟨0, 0⟩, production_speed := 1, remaining_until_new_ship := 1,
    defending_fleet := 1 }

/-- The C6 witness state. -/
def sW6 : GameState :=
  { entities := [.planet 0, .fleet 0]
    fleet := fun k => if k = 0 then fleetW6i else fleetW6d
    planet := fun _ => planetW6
    nextId := 2 }

theorem w6_can_dock : (sW6.fleet 0).can_dock (sW6.planet 0) := by
  show Position.distance_to ⟨0, 0⟩ ⟨0, 0⟩ < ((5 : ℤ) : ℝ) + MAX_FLEET_SPEED
  rw [distance_to_self, MAX_FLEET_SPEED]
  norm_num

/-- Witness for C6 at S = 5, D = 10: 3 strength moves over, the sum stays
15 and the partially-merged fleet is not yet marked for removal. -/
theorem reinforce_transfer_conserves_strength_witness :
    playerFleetIds sW6 = [0] ∧ (sW6.fleet 0).team = sW6.planetTeam 0 ∧
    (((handle_reinforce sW6).1.fleet 1).strength = 10 + min 5 MAX_ATTACK_SPEED ∧
    ((handle_reinforce sW6).1.fleet 0).strength = 5 - min 5 MAX_ATTACK_SPEED ∧
    ((handle_reinforce sW6).1.fleet 0).strength + ((handle_reinforce sW6).1.fleet 1).strength
      = 5 + 10 ∧
    (0 ∈ (handle_reinforce sW6).2.2 ↔ ((handle_reinforce sW6).1.fleet 0).strength = 0) ∧
    (handle_reinforce sW6).2.1 ++ (handle_reinforce sW6).2.2 = [0]) :=
  ⟨rfl, rfl,
    reinforce_transfer_conserves_strength sW6 0 1 0 5 10 rfl rfl rfl w6_can_dock rfl
      (by decide) rfl rfl⟩

/-! ## Claim C7 -/

/-- Claim C7: for an active planet whose garrison has a destination
different from the planet itself, the departure phase creates exactly one
new fleet at the planet's position, owned by the planet's team, carrying
the garrison's destination and full strength, and the garrison's strength
drops to 0 — strength is conserved.  With the split flag (wired through
`_handle_departure` but never set by the pipeline) the spawned strength is
`ceil(strength / 2)` and conservation holds likewise. -/
theorem departure_spawns_garrison_fleet (s : GameState) (pid q : PlanetId)
    (g : FleetId) (S : ℤ)
    (hsnap : playerPlanetIds s = [pid])
    (hg : (s.planet pid).defending_fleet = g)
    (hdst : (s.fleet g).destination = some q)
    (hqp : q ≠ pid)
    (hfresh : g ≠ s.nextId)
    (hS : (s.fleet g).strength = S) :
    (handle_departures s).2 = [s.nextId] ∧
    (handle_departures s).1.fleet s.nextId =
      { team := (s.fleet g).team, position := (s.planet pid).position,
        strength := S, destination := some q } ∧
    ((handle_departures s).1.fleet g).strength = 0 ∧
    ((handle_departures s).1.fleet g).strength
      + ((handle_departures s).1.fleet s.nextId).strength = S ∧
    ((handle_departure s pid q true).1.fleet s.nextId).strength = ⌈(S : ℚ) / 2⌉ ∧
    ((handle_departure s pid q true).1.fleet g).strength = S - ⌈(S : ℚ) / 2⌉ := by
  have hjg : s.nextId ≠ g := hfresh.symm
  simp only [handle_departures, hsnap, departuresGo, hg, hdst]
  rw [if_neg hqp]
  simp only [departuresGo, handle_departure, hg, hS,
    updFleet_fleet_self, updFleet_fleet_ne _ _ _ _ hjg, updFleet_fleet_ne _ _ _ _ hfresh,
    if_false, Bool.false_eq_true, if_true, hfresh, if_neg]
  exact ⟨trivial, trivial, by omega, by omega, trivial, trivial⟩

/-- Garrison of the C7 witness: strength 7, ordered to planet 1. -/
def fleetW7 : Fleet :=
  { team := .RED, position := ⟨2, 3⟩, strength := 7, destination := some 1 }

/-- Planet 0 of the C7 witness, garrisoned by fleet 0. -/
def planetW7 : Planet :=
  { position := ⟨2, 3⟩, production_speed := 5, remaining_until_new_ship := 5,
    defending_fleet := 0 }

/-- The C7 witness state: one active planet whose garrison wants to leave. -/
def sW7 : GameState :=
  { entities := [.planet 0, .fleet 0]
    fleet := fun k => if k = 0 then fleetW7 else fleetFiller
    planet := fun _ => planetW7
    nextId := 1 }

/-- Witness for C7 at S = 7: fleet 1 is spawned at (2,3) with strength 7
and destination planet 1, the garrison is left at strength 0, and the
split path of the helper spawns ceil(7/2) = 4. -/
theorem departure_spawns_garrison_fleet_witness :
    playerPlanetIds sW7 = [0] ∧ (sW7.fleet 0).strength = 7 ∧
    ((handle_departures sW7).2 = [1] ∧
    (handle_departures sW7).1.fleet 1 =
      { team := (sW7.fleet 0).team, position := (sW7.planet 0).position,
        strength := 7, destination := some 1 } ∧
    ((handle_departures sW7).1.fleet 0).strength = 0 ∧
    ((handle_departures sW7).1.fleet 0).strength
      + ((handle_departures sW7).1.fleet 1).strength = 7 ∧
    ((handle_departure sW7 0 1 true).1.fleet 1).strength = ⌈((7 : ℤ) : ℚ) / 2⌉ ∧
    ((handle_departure sW7 0 1 true).1.fleet 0).strength = 7 - ⌈((7 : ℤ) : ℚ) / 2⌉) :=
  ⟨rfl, rfl,
    departure_spawns_garrison_fleet sW7 0 1 0 7 rfl rfl rfl
      (by decide) (by decide) rfl⟩

/-! ## Claim C9 -/

theorem move_fleet_total (s : GameState) (i : FleetId) (q : PlanetId)
    (h : (s.fleet i).destination = some q) : ∃ s', move_fleet s i = some s' := by
  simp only [move_fleet, h]
  exact ⟨_, rfl⟩

theorem movementGo_total : ∀ (l : List FleetId) (s : GameState),
    ∃ s', movementGo s l = some s' := by
  intro l
  induction l with
  | nil => exact fun s => ⟨s, rfl⟩
  | cons i rest ih =>
      intro s
      cases hd : (s.fleet i).destination with
      | none => simpa only [movementGo, hd] using ih s
      | some q =>
          by_cases hdock : (s.fleet i).can_dock (s.planet q)
          · simp only [movementGo, hd]
            rw [if_pos hdock]
            exact ih s
          · obtain ⟨s2, hs2⟩ := move_fleet_total s i q hd
            simp only [movementGo, hd]
            rw [if_neg hdock, hs2]
            exact ih s2

/-- Claim C9: `_move_fleet` fails fast (raises `ValueError`, modelled
`none`) on a fleet whose destination is null, and this error branch is
unreachable from the movement phase: `_handle_movement` skips every fleet
with a null destination before calling the helper, so the phase always
completes with a state. -/
theorem move_fleet_requires_destination :
    (∀ (s : GameState) (i : FleetId), (s.fleet i).destination = none →
      move_fleet s i = none) ∧
    (∀ s : GameState, ∃ s', handle_movement s = some s') := by
  constructor
  · intro s i h
    simp only [move_fleet, h]
  · intro s
    exact movementGo_total (playerFleetIds s) s

/-- A docked fleet with no destination, input of the C9 witness. -/
def fleetW9 : Fleet :=
  { team := .BLUE, position := ⟨1, 1⟩, strength := 4, destination := none }

/-- The C9 witness state. -/
def sW9 : GameState :=
  { entities := [.fleet 0]
    fleet := fun _ => fleetW9
    planet := fun _ => planetC1
    nextId := 1 }

/-- Witness for C9: the helper raises on the destination-less fleet 0. -/
theorem move_fleet_requires_destination_witness :
    (sW9.fleet 0).destination = none ∧ move_fleet sW9 0 = none :=
  ⟨rfl, move_fleet_requires_destination.1 sW9 0 rfl⟩

/-! ## Claim C10 -/

/-- Claim C10: `step` is deterministic — identical entity collections and
identical, order-preserved command lists produce identical results.  The
whole tick pipeline is embedded as a pure function (the source consumes no
randomness inside `step`; `random` is used only by
`init_random_game_state`), so the result depends only on the state and the
command list. -/
theorem step_deterministic (s1 s2 : GameState) (c1 c2 : List MoveCommand)
    (hs : s1 = s2) (hc : c1 = c2) : step s1 c1 = step s2 c2 := by
  rw [hs, hc]

/-- First copy of the C10 witness state. -/
def sW10a : GameState :=
  { entities := [.planet 0, .fleet 0]
    fleet := fun _ => fleetW9
    planet := fun _ => planetC1
    nextId := 1 }

/-- Second, identical copy of the C10 witness state. -/
def sW10b : GameState :=
  { entities := [.planet 0, .fleet 0]
    fleet := fun _ => fleetW9
    planet := fun _ => planetC1
    nextId := 1 }

/-- Witness for C10 on two identical concrete runs. -/
theorem step_deterministic_witness :
    sW10a = sW10b ∧ step sW10a [] = step sW10b [] :=
  ⟨rfl, step_deterministic sW10a sW10b [] [] rfl rfl⟩

/-! ## Claim C8 -/

theorem alreadyDefendingGo_frame : ∀ (l : List FleetId) (s t : GameState),
    alreadyDefendingGo s l = some t →
    t.entities = s.entities ∧ t.planet = s.planet ∧ t.nextId = s.nextId ∧
    (∀ i, (t.fleet i).team = (s.fleet i).team ∧
      (t.fleet i).strength = (s.fleet i).strength ∧
      (t.fleet i).position = (s.fleet i).position) := by
  intro l
  induction l with
  | nil =>
      intro s t h
      cases h
      exact ⟨rfl, rfl, rfl, fun i => ⟨rfl, rfl, rfl⟩⟩
  | cons i rest ih =>
      intro s t h
      cases hd : (s.fleet i).destination with
      | none =>
          simp only [alreadyDefendingGo, hd] at h
          exact Option.noConfusion h
      | some q =>
          simp only [alreadyDefendingGo, hd] at h
          by_cases hc : (s.planet q).defending_fleet = i
          · rw [if_pos hc] at h
            obtain ⟨h1, h2, h3, h4⟩ := ih _ _ h
            refine ⟨h1, h2, h3, fun i0 => ?_⟩
            obtain ⟨ha, hb, hp⟩ := h4 i0
            by_cases hi : i0 = i
            · subst hi
              rw [ha, hb, hp, updFleet_fleet_self]
              exact ⟨rfl, rfl, rfl⟩
            · rw [ha, hb, hp, updFleet_fleet_ne _ _ _ _ hi]
              exact ⟨rfl, rfl, rfl⟩
          · rw [if_neg hc] at h
            exact ih _ _ h

theorem alreadyDefendingGo_keep_dest : ∀ (l : List FleetId) (s t : GameState)
    (g : FleetId) (q : PlanetId),
    alreadyDefendingGo s l = some t →
    (s.fleet g).destination = some q →
    (s.planet q).defending_fleet ≠ g →
    (t.fleet g).destination = some q := by
  intro l
  induction l with
  | nil =>
      intro s t g q h hg hne
      cases h
      exact hg
  | cons i rest ih =>
      intro s t g q h hg hne
      cases hd : (s.fleet i).destination with
      | none =>
          simp only [alreadyDefendingGo, hd] at h
          exact Option.noConfusion h
      | some q' =>
          simp only [alreadyDefendingGo, hd] at h
          by_cases hc : (s.planet q').defending_fleet = i
          · rw [if_pos hc] at h
            by_cases hgi : g = i
            · subst hgi
              rw [hg] at hd
              cases hd
              exact absurd hc hne
            · refine ih _ _ g q h ?_ hne
              rw [updFleet_fleet_ne _ _ _ _ hgi]
              exact hg
          · rw [if_neg hc] at h
            exact ih _ _ g q h hg hne

theorem handle_departure_planet (s : GameState) (o d : PlanetId) (b : Bool) :
    (handle_departure s o d b).1.planet = s.planet := rfl

theorem handle_departure_entities (s : GameState) (o d : PlanetId) (b : Bool) :
    (handle_departure s o d b).1.entities = s.entities := rfl

theorem handle_departure_nextId (s : GameState) (o d : PlanetId) (b : Bool) :
    (handle_departure s o d b).1.nextId = s.nextId + 1 := rfl

theorem handle_departure_keep (s : GameState) (o d : PlanetId) (b : Bool)
    (i : FleetId) (hi : i < s.nextId) :
    ((handle_departure s o d b).1.fleet i).team = (s.fleet i).team ∧
    ((handle_departure s o d b).1.fleet i).position = (s.fleet i).position ∧
    ((handle_departure s o d b).1.fleet i).destination = (s.fleet i).destination := by
  have hin : i ≠ s.nextId := Nat.ne_of_lt hi
  simp only [handle_departure]
  by_cases hig : i = (s.planet o).defending_fleet
  · rw [← hig, updFleet_fleet_self]
    simp only [hin, if_false]
    exact ⟨trivial, trivial, trivial⟩
  · rw [updFleet_fleet_ne _ _ _ _ hig]
    simp only [hin, if_false]
    exact ⟨trivial, trivial, trivial⟩

theorem handle_departure_frozen (s : GameState) (o d : PlanetId) (b : Bool)
    (j : FleetId) (hj1 : j ≠ (s.planet o).defending_fleet) (hj2 : j < s.nextId) :
    (handle_departure s o d b).1.fleet j = s.fleet j := by
  have hjn : j ≠ s.nextId := Nat.ne_of_lt hj2
  simp only [handle_departure]
  rw [updFleet_fleet_ne _ _ _ _ hj1]
  simp only [hjn, if_false]



theorem departuresGo_planet : ∀ (l : List PlanetId) (s : GameState),
    (departuresGo s l).1.planet = s.planet := by
  intro l
  induction l with
  | nil => intro s; rfl
  | cons pid rest ih =>
      intro s
      cases hd : (s.fleet (s.planet pid).defending_fleet).destination with
      | none => simp only [departuresGo, hd]; exact ih s
      | some q =>
          simp only [departuresGo, hd]
          by_cases hq : q = pid
          · rw [if_pos hq]; exact ih s
          · rw [if_neg hq]
            exact (ih _).trans (handle_departure_planet s pid q false)

theorem departuresGo_entities : ∀ (l : List PlanetId) (s : GameState),
    (departuresGo s l).1.entities = s.entities := by
  intro l
  induction l with
  | nil => intro s; rfl
  | cons pid rest ih =>
      intro s
      cases hd : (s.fleet (s.planet pid).defending_fleet).destination with
      | none => simp only [departuresGo, hd]; exact ih s
      | some q =>
          simp only [departuresGo, hd]
          by_cases hq : q = pid
          · rw [if_pos hq]; exact ih s
          · rw [if_neg hq]
            exact (ih _).trans (handle_departure_entities s pid q false)

theorem departuresGo_nextId_le : ∀ (l : List PlanetId) (s : GameState),
    s.nextId ≤ (departuresGo s l).1.nextId := by
  intro l
  induction l with
  | nil => intro s; exact le_refl _
  | cons pid rest ih =>
      intro s
      cases hd : (s.fleet (s.planet pid).defending_fleet).destination with
      | none => simp only [departuresGo, hd]; exact ih s
      | some q =>
          simp only [departuresGo, hd]
          by_cases hq : q = pid
          · rw [if_pos hq]; exact ih s
          · rw [if_neg hq]
            refine le_trans ?_ (ih _)
            rw [handle_departure_nextId]
            exact Nat.le_succ _

theorem departuresGo_fleet_keep : ∀ (l : List PlanetId) (s : GameState) (i : FleetId),
    i < s.nextId →
    ((departuresGo s l).1.fleet i).team = (s.fleet i).team ∧
    ((departuresGo s l).1.fleet i).position = (s.fleet i).position ∧
    ((departuresGo s l).1.fleet i).destination = (s.fleet i).destination := by
  intro l
  induction l with
  | nil => intro s i hi; exact ⟨rfl, rfl, rfl⟩
  | cons pid rest ih =>
      intro s i hi
      cases hd : (s.fleet (s.planet pid).defending_fleet).destination with
      | none => simp only [departuresGo, hd]; exact ih s i hi
      | some q =>
          simp only [departuresGo, hd]
          by_cases hq : q = pid
          · rw [if_pos hq]; exact ih s i hi
          · rw [if_neg hq]
            have hi' : i < (handle_departure s pid q false).1.nextId := by
              rw [handle_departure_nextId]
              exact Nat.lt_succ_of_lt hi
            obtain ⟨h1, h2, h3⟩ := ih (handle_departure s pid q false).1 i hi'
            obtain ⟨k1, k2, k3⟩ := handle_departure_keep s pid q false i hi
            exact ⟨h1.trans k1, h2.trans k2, h3.trans k3⟩

theorem departuresGo_fleet_frozen : ∀ (l : List PlanetId) (s : GameState) (j : FleetId),
    (∀ p, (s.planet p).defending_fleet ≠ j) → j < s.nextId →
    (departuresGo s l).1.fleet j = s.fleet j := by
  intro l
  induction l with
  | nil => intro s j hd hj; rfl
  | cons pid rest ih =>
      intro s j hdef hj
      cases hd : (s.fleet (s.planet pid).defending_fleet).destination with
      | none => simp only [departuresGo, hd]; exact ih s j hdef hj
      | some q =>
          simp only [departuresGo, hd]
          by_cases hq : q = pid
          · rw [if_pos hq]; exact ih s j hdef hj
          · rw [if_neg hq]
            have hfr := handle_departure_frozen s pid q false j (hdef pid).symm hj
            refine (ih _ j ?_ ?_).trans hfr
            · intro p
              rw [handle_departure_planet]
              exact hdef p
            · rw [handle_departure_nextId]
              exact Nat.lt_succ_of_lt hj

theorem departuresGo_head_spawn (s : GameState) (pid q : PlanetId) (g : FleetId)
    (rest : List PlanetId)
    (hg : (s.planet pid).defending_fleet = g)
    (hdst : (s.fleet g).destination = some q)
    (hqp : q ≠ pid)
    (H9 : ∀ p, (s.planet p).defending_fleet < s.nextId) :
    s.nextId ∈ (departuresGo s (pid :: rest)).2 ∧
    (departuresGo s (pid :: rest)).1.fleet s.nextId =
      { team := (s.fleet g).team, position := (s.planet pid).position,
        strength := (s.fleet g).strength, destination := some q } := by
  have hgn : g < s.nextId := hg ▸ H9 pid
  simp only [departuresGo, hg, hdst]
  rw [if_neg hqp]
  constructor
  · exact List.mem_cons_self _ _
  · have hfr : (departuresGo (handle_departure s pid q false).1 rest).1.fleet s.nextId
        = (handle_departure s pid q false).1.fleet s.nextId := by
      refine departuresGo_fleet_frozen rest _ s.nextId ?_ ?_
      · intro p
        rw [handle_departure_planet]
        exact Nat.ne_of_lt (H9 p)
      · rw [handle_departure_nextId]
        exact Nat.lt_succ_self _
    rw [hfr]
    show (updFleet _ _ _).fleet s.nextId = _
    rw [hg, updFleet_fleet_ne _ _ _ _ (Nat.ne_of_lt hgn).symm]
    simp



theorem movementGo_frame : ∀ (l : List FleetId) (s t : GameState),
    movementGo s l = some t →
    t.entities = s.entities ∧ t.planet = s.planet ∧ t.nextId = s.nextId ∧
    (∀ i, (t.fleet i).team = (s.fleet i).team ∧
      (t.fleet i).strength = (s.fleet i).strength ∧
      (t.fleet i).destination = (s.fleet i).destination) := by
  intro l
  induction l with
  | nil =>
      intro s t h
      cases h
      exact ⟨rfl, rfl, rfl, fun i => ⟨rfl, rfl, rfl⟩⟩
  | cons i rest ih =>
      intro s t h
      cases hd : (s.fleet i).destination with
      | none =>
          simp only [movementGo, hd] at h
          exact ih s t h
      | some q =>
          simp only [movementGo, hd] at h
          by_cases hdock : (s.fleet i).can_dock (s.planet q)
          · rw [if_pos hdock] at h
            exact ih s t h
          · rw [if_neg hdock] at h
            simp only [move_fleet, hd] at h
            obtain ⟨h1, h2, h3, h4⟩ := ih _ _ h
            refine ⟨h1, h2, h3, fun i0 => ?_⟩
            obtain ⟨ha, hb, hc⟩ := h4 i0
            by_cases hi : i0 = i
            · subst hi
              rw [ha, hb, hc, updFleet_fleet_self]
              exact ⟨rfl, rfl, hd.symm⟩
            · rw [ha, hb, hc, updFleet_fleet_ne _ _ _ _ hi]
              exact ⟨rfl, rfl, rfl⟩

theorem movementGo_fleet_ge : ∀ (l : List FleetId) (s t : GameState) (N : Nat),
    movementGo s l = some t → (∀ i ∈ l, i < N) → ∀ j, N ≤ j →
    t.fleet j = s.fleet j := by
  intro l
  induction l with
  | nil =>
      intro s t N h hl j hj
      cases h
      rfl
  | cons i rest ih =>
      intro s t N h hl j hj
      have hrest : ∀ i' ∈ rest, i' < N := fun i' hi' => hl i' (List.mem_cons_of_mem _ hi')
      cases hd : (s.fleet i).destination with
      | none =>
          simp only [movementGo, hd] at h
          exact ih s t N h hrest j hj
      | some q =>
          simp only [movementGo, hd] at h
          by_cases hdock : (s.fleet i).can_dock (s.planet q)
          · rw [if_pos hdock] at h
            exact ih s t N h hrest j hj
          · rw [if_neg hdock] at h
            simp only [move_fleet, hd] at h
            have hji : j ≠ i :=
              (Nat.ne_of_lt (lt_of_lt_of_le (hl i (List.mem_cons_self _ _)) hj)).symm
            rw [ih _ _ N h hrest j hj, updFleet_fleet_ne _ _ _ _ hji]

theorem reinforceHit_entities (s : GameState) (i : FleetId) (q : PlanetId) :
    (reinforceHit s i q).entities = s.entities := rfl

theorem reinforceHit_planet (s : GameState) (i : FleetId) (q : PlanetId) :
    (reinforceHit s i q).planet = s.planet := rfl

theorem reinforceHit_nextId (s : GameState) (i : FleetId) (q : PlanetId) :
    (reinforceHit s i q).nextId = s.nextId := rfl

theorem reinforceHit_fleet_keep (s : GameState) (i : FleetId) (q : PlanetId) (i0 : FleetId) :
    ((reinforceHit s i q).fleet i0).team = (s.fleet i0).team ∧
    ((reinforceHit s i q).fleet i0).position = (s.fleet i0).position ∧
    ((reinforceHit s i q).fleet i0).destination = (s.fleet i0).destination := by
  simp only [reinforceHit]
  by_cases h1 : i0 = i
  · subst h1
    rw [updFleet_fleet_self]
    by_cases h2 : i0 = (s.planet q).defending_fleet
    · rw [← h2, updFleet_fleet_self]
      exact ⟨rfl, rfl, rfl⟩
    · rw [updFleet_fleet_ne _ _ _ _ h2]
      exact ⟨rfl, rfl, rfl⟩
  · rw [updFleet_fleet_ne _ _ _ _ h1]
    by_cases h2 : i0 = (s.planet q).defending_fleet
    · rw [← h2, updFleet_fleet_self]
      exact ⟨rfl, rfl, rfl⟩
    · rw [updFleet_fleet_ne _ _ _ _ h2]
      exact ⟨rfl, rfl, rfl⟩

theorem reinforceHit_fleet_ge (s : GameState) (i : FleetId) (q : PlanetId)
    (N : Nat) (hd : (s.planet q).defending_fleet < N) (hi : i < N)
    (j : FleetId) (hj : N ≤ j) :
    (reinforceHit s i q).fleet j = s.fleet j := by
  have hji : j ≠ i := (Nat.ne_of_lt (lt_of_lt_of_le hi hj)).symm
  have hjd : j ≠ (s.planet q).defending_fleet := (Nat.ne_of_lt (lt_of_lt_of_le hd hj)).symm
  simp only [reinforceHit]
  rw [updFleet_fleet_ne _ _ _ _ hji, updFleet_fleet_ne _ _ _ _ hjd]



theorem reinforceGo_frame : ∀ (l : List FleetId) (s : GameState),
    (reinforceGo s l).1.entities = s.entities ∧
    (reinforceGo s l).1.planet = s.planet ∧
    (reinforceGo s l).1.nextId = s.nextId ∧
    (∀ i, ((reinforceGo s l).1.fleet i).team = (s.fleet i).team ∧
      ((reinforceGo s l).1.fleet i).position = (s.fleet i).position ∧
      ((reinforceGo s l).1.fleet i).destination = (s.fleet i).destination) := by
  intro l
  induction l with
  | nil => exact fun s => ⟨rfl, rfl, rfl, fun i => ⟨rfl, rfl, rfl⟩⟩
  | cons i rest ih =>
      intro s
      cases hd : (s.fleet i).destination with
      | none =>
          simp only [reinforceGo, hd]
          exact ih s
      | some q =>
          simp only [reinforceGo, hd]
          by_cases ht : (s.fleet i).team ≠ s.planetTeam q
          · rw [if_pos ht]
            exact ih s
          · rw [if_neg ht]
            by_cases hdock : ¬ (s.fleet i).can_dock (s.planet q)
            · rw [if_pos hdock]
              exact ih s
            · rw [if_neg hdock]
              simp only [apply_ite
                (Prod.fst : GameState × List FleetId × List FleetId → GameState), ite_self]
              obtain ⟨e1, p1, n1, f1⟩ := ih (reinforceHit s i q)
              refine ⟨e1.trans (reinforceHit_entities s i q),
                p1.trans (reinforceHit_planet s i q),
                n1.trans (reinforceHit_nextId s i q), fun i0 => ?_⟩
              obtain ⟨a1, b1, c1⟩ := f1 i0
              obtain ⟨a2, b2, c2⟩ := reinforceHit_fleet_keep s i q i0
              exact ⟨a1.trans a2, b1.trans b2, c1.trans c2⟩

theorem reinforceGo_fleet_ge : ∀ (l : List FleetId) (s : GameState) (N : Nat),
    (∀ p, (s.planet p).defending_fleet < N) → (∀ i ∈ l, i < N) → ∀ j, N ≤ j →
    (reinforceGo s l).1.fleet j = s.fleet j := by
  intro l
  induction l with
  | nil => intro s N hdef hl j hj; rfl
  | cons i rest ih =>
      intro s N hdef hl j hj
      have hrest : ∀ i' ∈ rest, i' < N := fun i' hi' => hl i' (List.mem_cons_of_mem _ hi')
      cases hd : (s.fleet i).destination with
      | none =>
          simp only [reinforceGo, hd]
          exact ih s N hdef hrest j hj
      | some q =>
          simp only [reinforceGo, hd]
          by_cases ht : (s.fleet i).team ≠ s.planetTeam q
          · rw [if_pos ht]
            exact ih s N hdef hrest j hj
          · rw [if_neg ht]
            by_cases hdock : ¬ (s.fleet i).can_dock (s.planet q)
            · rw [if_pos hdock]
              exact ih s N hdef hrest j hj
            · rw [if_neg hdock]
              simp only [apply_ite
                (Prod.fst : GameState × List FleetId × List FleetId → GameState), ite_self]
              have hdef' : ∀ p, ((reinforceHit s i q).planet p).defending_fleet < N := by
                intro p
                rw [reinforceHit_planet]
                exact hdef p
              refine (ih _ N hdef' hrest j hj).trans ?_
              exact reinforceHit_fleet_ge s i q N (hdef q) (hl i (List.mem_cons_self _ _)) j hj

theorem reinforceGo_merged_sub : ∀ (l : List FleetId) (s : GameState),
    ∀ x ∈ (reinforceGo s l).2.2, x ∈ l := by
  intro l
  induction l with
  | nil => intro s x hx; exact absurd hx (List.not_mem_nil x)
  | cons i rest ih =>
      intro s x hx
      cases hd : (s.fleet i).destination with
      | none =>
          simp only [reinforceGo, hd] at hx
          exact List.mem_cons_of_mem _ (ih s x hx)
      | some q =>
          simp only [reinforceGo, hd] at hx
          by_cases ht : (s.fleet i).team ≠ s.planetTeam q
          · rw [if_pos ht] at hx
            exact List.mem_cons_of_mem _ (ih s x hx)
          · rw [if_neg ht] at hx
            by_cases hdock : ¬ (s.fleet i).can_dock (s.planet q)
            · rw [if_pos hdock] at hx
              exact List.mem_cons_of_mem _ (ih s x hx)
            · rw [if_neg hdock] at hx
              by_cases hm : ((reinforceHit s i q).fleet i).strength = 0
              · rw [if_pos hm] at hx
                rcases List.mem_cons.mp hx with h | h
                · exact h ▸ List.mem_cons_self _ _
                · exact List.mem_cons_of_mem _ (ih _ x h)
              · rw [if_neg hm] at hx
                exact List.mem_cons_of_mem _ (ih _ x hx)



theorem updFleet_tpd (s : GameState) (iu : FleetId) (f : Fleet)
    (h1 : f.team = (s.fleet iu).team) (h2 : f.position = (s.fleet iu).position)
    (h3 : f.destination = (s.fleet iu).destination) (i0 : FleetId) :
    ((updFleet s iu f).fleet i0).team = (s.fleet i0).team ∧
    ((updFleet s iu f).fleet i0).position = (s.fleet i0).position ∧
    ((updFleet s iu f).fleet i0).destination = (s.fleet i0).destination := by
  by_cases h : i0 = iu
  · subst h
    rw [updFleet_fleet_self]
    exact ⟨h1, h2, h3⟩
  · rw [updFleet_fleet_ne _ _ _ _ h]
    exact ⟨rfl, rfl, rfl⟩

theorem combatHit_entities (s : GameState) (i : FleetId) (q : PlanetId) :
    (combatHit s i q).1.entities = s.entities := by
  simp only [combatHit]
  split_ifs <;> rfl

theorem combatHit_nextId (s : GameState) (i : FleetId) (q : PlanetId) :
    (combatHit s i q).1.nextId = s.nextId := by
  simp only [combatHit]
  split_ifs <;> rfl

/-- Two states agreeing on every fleet's team, position and destination
(only strengths may differ). -/
def FleetTpdEq (s t : GameState) : Prop :=
  ∀ i, (t.fleet i).team = (s.fleet i).team ∧
    (t.fleet i).position = (s.fleet i).position ∧
    (t.fleet i).destination = (s.fleet i).destination

theorem fleetTpdEq_refl (s : GameState) : FleetTpdEq s s :=
  fun _ => ⟨rfl, rfl, rfl⟩

theorem fleetTpdEq_updFleet {s t : GameState} (h : FleetTpdEq s t)
    (iu : FleetId) (f : Fleet)
    (h1 : f.team = (t.fleet iu).team) (h2 : f.position = (t.fleet iu).position)
    (h3 : f.destination = (t.fleet iu).destination) :
    FleetTpdEq s (updFleet t iu f) := by
  intro i0
  obtain ⟨a, b, c⟩ := h i0
  by_cases hi : i0 = iu
  · subst hi
    rw [updFleet_fleet_self]
    obtain ⟨a', b', c'⟩ := h i0
    exact ⟨h1.trans a', h2.trans b', h3.trans c'⟩
  · rw [updFleet_fleet_ne _ _ _ _ hi]
    exact ⟨a, b, c⟩

theorem fleetTpdEq_updPlanet {s t : GameState} (h : FleetTpdEq s t)
    (p : PlanetId) (pl : Planet) : FleetTpdEq s (updPlanet t p pl) := h

theorem combatHit_fleet_keep (s : GameState) (i : FleetId) (q : PlanetId) :
    FleetTpdEq s (combatHit s i q).1 := by
  simp only [combatHit, updFleet_planet]
  split_ifs <;>
    repeat' first
      | exact fleetTpdEq_refl _
      | apply fleetTpdEq_updPlanet
      | apply fleetTpdEq_updFleet
      | rfl

theorem combatHit_fleet_ge (s : GameState) (i : FleetId) (q : PlanetId) (N : Nat)
    (hd : (s.planet q).defending_fleet < N) (hi : i < N)
    (j : FleetId) (hj : N ≤ j) :
    (combatHit s i q).1.fleet j = s.fleet j := by
  have hji : j ≠ i := (Nat.ne_of_lt (lt_of_lt_of_le hi hj)).symm
  have hjd : j ≠ (s.planet q).defending_fleet := (Nat.ne_of_lt (lt_of_lt_of_le hd hj)).symm
  simp only [combatHit, updFleet_planet]
  split_ifs <;>
    (try simp only [updPlanet_fleet]) <;>
    first
    | rw [updFleet_fleet_ne _ _ _ _ hjd, updFleet_fleet_ne _ _ _ _ hji,
        updFleet_fleet_ne _ _ _ _ hjd]
    | rw [updFleet_fleet_ne _ _ _ _ hji, updFleet_fleet_ne _ _ _ _ hjd]

theorem combatHit_planet_defender (s : GameState) (i : FleetId) (q : PlanetId)
    (p : PlanetId) :
    ((combatHit s i q).1.planet p).defending_fleet = (s.planet p).defending_fleet ∨
    ((combatHit s i q).1.planet p).defending_fleet = i := by
  simp only [combatHit, updFleet_planet]
  split_ifs <;>
    first
    | (by_cases hp : p = q
       · subst hp
         right
         rw [updPlanet_planet_self]
       · left
         rw [updPlanet_planet_ne _ _ _ _ hp, updFleet_planet, updFleet_planet]
         try rw [updFleet_planet])
    | (left
       rfl)

theorem combatHit_destroyed (s : GameState) (i : FleetId) (q : PlanetId) :
    ∀ x ∈ (combatHit s i q).2, x = i ∨ x = (s.planet q).defending_fleet := by
  simp only [combatHit, updFleet_planet]
  split_ifs <;> intro x hx <;> simp only [List.mem_append, List.mem_singleton,
    List.not_mem_nil, or_false, false_or] at hx <;> tauto



theorem combatGo_entities : ∀ (l : List FleetId) (s : GameState),
    (combatGo s l).1.entities = s.entities := by
  intro l
  induction l with
  | nil => intro s; rfl
  | cons i rest ih =>
      intro s
      cases hd : (s.fleet i).destination with
      | none => simp only [combatGo, hd]; exact ih s
      | some q =>
          simp only [combatGo, hd]
          by_cases hdock : ¬ (s.fleet i).can_dock (s.planet q)
          · rw [if_pos hdock]; exact ih s
          · rw [if_neg hdock]
            exact (ih _).trans (combatHit_entities s i q)

theorem combatGo_nextId : ∀ (l : List FleetId) (s : GameState),
    (combatGo s l).1.nextId = s.nextId := by
  intro l
  induction l with
  | nil => intro s; rfl
  | cons i rest ih =>
      intro s
      cases hd : (s.fleet i).destination with
      | none => simp only [combatGo, hd]; exact ih s
      | some q =>
          simp only [combatGo, hd]
          by_cases hdock : ¬ (s.fleet i).can_dock (s.planet q)
          · rw [if_pos hdock]; exact ih s
          · rw [if_neg hdock]
            exact (ih _).trans (combatHit_nextId s i q)

theorem fleetTpdEq_trans {s t u : GameState} (h1 : FleetTpdEq s t)
    (h2 : FleetTpdEq t u) : FleetTpdEq s u := by
  intro i
  obtain ⟨a1, b1, c1⟩ := h1 i
  obtain ⟨a2, b2, c2⟩ := h2 i
  exact ⟨a2.trans a1, b2.trans b1, c2.trans c1⟩

theorem combatGo_fleet_keep : ∀ (l : List FleetId) (s : GameState),
    FleetTpdEq s (combatGo s l).1 := by
  intro l
  induction l with
  | nil => intro s; exact fleetTpdEq_refl s
  | cons i rest ih =>
      intro s
      cases hd : (s.fleet i).destination with
      | none => simp only [combatGo, hd]; exact ih s
      | some q =>
          simp only [combatGo, hd]
          by_cases hdock : ¬ (s.fleet i).can_dock (s.planet q)
          · rw [if_pos hdock]; exact ih s
          · rw [if_neg hdock]
            exact fleetTpdEq_trans (combatHit_fleet_keep s i q) (ih _)

theorem combatGo_inv : ∀ (l : List FleetId) (s : GameState) (N : Nat),
    (∀ i ∈ l, i < N) → (∀ p, (s.planet p).defending_fleet < N) →
    (∀ p, ((combatGo s l).1.planet p).defending_fleet < N) ∧
    (∀ x ∈ (combatGo s l).2, x < N) ∧
    (∀ j, N ≤ j → (combatGo s l).1.fleet j = s.fleet j) := by
  intro l
  induction l with
  | nil =>
      intro s N hl hdef
      exact ⟨hdef, fun x hx => absurd hx (List.not_mem_nil x), fun j hj => rfl⟩
  | cons i rest ih =>
      intro s N hl hdef
      have hiN : i < N := hl i (List.mem_cons_self _ _)
      have hrest : ∀ i' ∈ rest, i' < N := fun i' hi' => hl i' (List.mem_cons_of_mem _ hi')
      cases hd : (s.fleet i).destination with
      | none => simp only [combatGo, hd]; exact ih s N hrest hdef
      | some q =>
          simp only [combatGo, hd]
          by_cases hdock : ¬ (s.fleet i).can_dock (s.planet q)
          · rw [if_pos hdock]; exact ih s N hrest hdef
          · rw [if_neg hdock]
            have hdef' : ∀ p, ((combatHit s i q).1.planet p).defending_fleet < N := by
              intro p
              rcases combatHit_planet_defender s i q p with h | h
              · rw [h]; exact hdef p
              · rw [h]; exact hiN
            obtain ⟨k1, k2, k3⟩ := ih (combatHit s i q).1 N hrest hdef'
            refine ⟨k1, ?_, ?_⟩
            · intro x hx
              rcases List.mem_append.mp hx with h | h
              · rcases combatHit_destroyed s i q x h with h' | h'
                · rw [h']; exact hiN
                · rw [h']; exact hdef q
              · exact k2 x h
            · intro j hj
              exact (k3 j hj).trans (combatHit_fleet_ge s i q N (hdef q) hiN j hj)



theorem productionGo_entities : ∀ (l : List PlanetId) (s : GameState),
    (productionGo s l).entities = s.entities := by
  intro l
  induction l with
  | nil => intro s; rfl
  | cons pid rest ih =>
      intro s
      simp only [productionGo]
      by_cases hc : ((updPlanet s pid
          { s.planet pid with remaining_until_new_ship :=
            (s.planet pid).remaining_until_new_ship - 1 }).planet pid).remaining_until_new_ship ≤ 0
      · rw [if_pos hc]
        exact ih _
      · rw [if_neg hc]
        exact ih _

theorem productionGo_nextId : ∀ (l : List PlanetId) (s : GameState),
    (productionGo s l).nextId = s.nextId := by
  intro l
  induction l with
  | nil => intro s; rfl
  | cons pid rest ih =>
      intro s
      simp only [productionGo]
      by_cases hc : ((updPlanet s pid
          { s.planet pid with remaining_until_new_ship :=
            (s.planet pid).remaining_until_new_ship - 1 }).planet pid).remaining_until_new_ship ≤ 0
      · rw [if_pos hc]
        exact ih _
      · rw [if_neg hc]
        exact ih _

theorem productionGo_fleet_keep : ∀ (l : List PlanetId) (s : GameState),
    FleetTpdEq s (productionGo s l) := by
  intro l
  induction l with
  | nil => intro s; exact fleetTpdEq_refl s
  | cons pid rest ih =>
      intro s
      simp only [productionGo]
      by_cases hc : ((updPlanet s pid
          { s.planet pid with remaining_until_new_ship :=
            (s.planet pid).remaining_until_new_ship - 1 }).planet pid).remaining_until_new_ship ≤ 0
      · rw [if_pos hc]
        refine fleetTpdEq_trans ?_ (ih _)
        exact fleetTpdEq_updFleet (fleetTpdEq_updPlanet (fleetTpdEq_updPlanet
          (fleetTpdEq_refl s) _ _) _ _) _ _ rfl rfl rfl
      · rw [if_neg hc]
        refine fleetTpdEq_trans ?_ (ih _)
        exact fleetTpdEq_updPlanet (fleetTpdEq_refl s) _ _

theorem productionGo_planet_defender : ∀ (l : List PlanetId) (s : GameState) (p : PlanetId),
    ((productionGo s l).planet p).defending_fleet = (s.planet p).defending_fleet := by
  intro l
  induction l with
  | nil => intro s p; rfl
  | cons pid rest ih =>
      intro s p
      simp only [productionGo]
      by_cases hc : ((updPlanet s pid
          { s.planet pid with remaining_until_new_ship :=
            (s.planet pid).remaining_until_new_ship - 1 }).planet pid).remaining_until_new_ship ≤ 0
      · rw [if_pos hc, ih]
        show ((updPlanet _ pid _).planet p).defending_fleet = _
        by_cases hp : p = pid
        · subst hp
          rw [updPlanet_planet_self]
          show ((updPlanet _ p _).planet p).defending_fleet = _
          rw [updPlanet_planet_self]
        · rw [updPlanet_planet_ne _ _ _ _ hp, updPlanet_planet_ne _ _ _ _ hp]
      · rw [if_neg hc, ih]
        by_cases hp : p = pid
        · subst hp
          rw [updPlanet_planet_self]
        · rw [updPlanet_planet_ne _ _ _ _ hp]

theorem productionGo_fleet_ge : ∀ (l : List PlanetId) (s : GameState) (N : Nat),
    (∀ p, (s.planet p).defending_fleet < N) → ∀ j, N ≤ j →
    (productionGo s l).fleet j = s.fleet j := by
  intro l
  induction l with
  | nil => intro s N hdef j hj; rfl
  | cons pid rest ih =>
      intro s N hdef j hj
      simp only [productionGo]
      by_cases hc : ((updPlanet s pid
          { s.planet pid with remaining_until_new_ship :=
            (s.planet pid).remaining_until_new_ship - 1 }).planet pid).remaining_until_new_ship ≤ 0
      · rw [if_pos hc]
        have hdN : ((updPlanet (updPlanet s pid
            { s.planet pid with remaining_until_new_ship :=
              (s.planet pid).remaining_until_new_ship - 1 }) pid
            { (updPlanet s pid
                { s.planet pid with remaining_until_new_ship :=
                  (s.planet pid).remaining_until_new_ship - 1 }).planet pid with
              remaining_until_new_ship :=
                ((updPlanet s pid
                  { s.planet pid with remaining_until_new_ship :=
                    (s.planet pid).remaining_until_new_ship - 1 }).planet pid).production_speed }).planet
            pid).defending_fleet < N := by
          rw [updPlanet_planet_self]
          show ((updPlanet s pid _).planet pid).defending_fleet < N
          rw [updPlanet_planet_self]
          exact hdef pid
        refine (ih _ N ?_ j hj).trans ?_
        · intro p
          rw [updFleet_planet]
          by_cases hp : p = pid
          · subst hp
            rw [updPlanet_planet_self]
            show ((updPlanet s p _).planet p).defending_fleet < N
            rw [updPlanet_planet_self]
            exact hdef p
          · rw [updPlanet_planet_ne _ _ _ _ hp, updPlanet_planet_ne _ _ _ _ hp]
            exact hdef p
        · rw [updFleet_fleet_ne _ _ _ _ (Nat.ne_of_lt (lt_of_lt_of_le hdN hj)).symm]
          rfl
      · rw [if_neg hc]
        refine (ih _ N ?_ j hj).trans rfl
        intro p
        by_cases hp : p = pid
        · subst hp
          rw [updPlanet_planet_self]
          exact hdef p
        · rw [updPlanet_planet_ne _ _ _ _ hp]
          exact hdef p

theorem eraseRef_mem : ∀ (l : List EntityRef) (t x : EntityRef),
    x ∈ l → x ≠ t → x ∈ eraseRef l t := by
  intro l
  induction l with
  | nil => intro t x hx _; exact absurd hx (List.not_mem_nil x)
  | cons r rest ih =>
      intro t x hx hne
      rcases List.mem_cons.mp hx with h | h
      · subst h
        simp only [eraseRef]
        rw [if_neg ?_]
        · exact List.mem_cons_self _ _
        · exact hne
      · simp only [eraseRef]
        by_cases hr : r = t
        · rw [if_pos hr]
          exact h
        · rw [if_neg hr]
          exact List.mem_cons_of_mem _ (ih t x h hne)

theorem removeFleets_frame : ∀ (l : List FleetId) (s t : GameState),
    removeFleets s l = some t →
    t.fleet = s.fleet ∧ t.planet = s.planet ∧ t.nextId = s.nextId := by
  intro l
  induction l with
  | nil =>
      intro s t h
      cases h
      exact ⟨rfl, rfl, rfl⟩
  | cons i rest ih =>
      intro s t h
      simp only [removeFleets] at h
      by_cases hm : EntityRef.fleet i ∈ s.entities
      · rw [if_pos hm] at h
        obtain ⟨a, b, c⟩ := ih _ t h
        exact ⟨a, b, c⟩
      · rw [if_neg hm] at h
        exact Option.noConfusion h

theorem removeFleets_mem : ∀ (l : List FleetId) (s t : GameState) (j : FleetId),
    removeFleets s l = some t → EntityRef.fleet j ∈ s.entities → j ∉ l →
    EntityRef.fleet j ∈ t.entities := by
  intro l
  induction l with
  | nil =>
      intro s t j h hj _
      cases h
      exact hj
  | cons i rest ih =>
      intro s t j h hj hnl
      simp only [removeFleets] at h
      by_cases hm : EntityRef.fleet i ∈ s.entities
      · rw [if_pos hm] at h
        have hji : j ≠ i := fun he => hnl (he ▸ List.mem_cons_self _ _)
        refine ih _ t j h ?_ (fun hr => hnl (List.mem_cons_of_mem _ hr))
        exact eraseRef_mem _ _ _ hj (by simp [hji])
      · rw [if_neg hm] at h
        exact Option.noConfusion h



theorem mem_playerFleetIds (s : GameState) (i : FleetId) :
    i ∈ playerFleetIds s → EntityRef.fleet i ∈ s.entities := by
  intro h
  obtain ⟨e, he, hmap⟩ := List.mem_filterMap.mp h
  cases e with
  | fleet i' =>
      have hmap' : (if (s.fleet i').team ≠ Team.NEUTREAL then some i' else none)
          = some i := hmap
      by_cases ht : (s.fleet i').team ≠ Team.NEUTREAL
      · rw [if_pos ht] at hmap'
        exact (Option.some.inj hmap') ▸ he
      · rw [if_neg ht] at hmap'
        exact Option.noConfusion hmap'
  | planet p => exact Option.noConfusion (show (none : Option FleetId) = some i from hmap)

theorem playerPlanetIds_congr (s₂ s₁ : GameState)
    (he : s₂.entities = s₁.entities)
    (ht : ∀ p, s₂.planetTeam p = s₁.planetTeam p) :
    playerPlanetIds s₂ = playerPlanetIds s₁ := by
  unfold playerPlanetIds
  rw [he]
  refine List.filterMap_congr fun e _ => ?_
  cases e with
  | fleet i => rfl
  | planet p =>
      show (if s₂.planetTeam p ≠ Team.NEUTREAL then some p else none)
        = (if s₁.planetTeam p ≠ Team.NEUTREAL then some p else none)
      rw [ht p]



/-- Claim C8: no phase of `step` modifies a departing garrison's
destination (the already-arrived correction clears it only when the
garrison defends its own destination planet, which the hypotheses
exclude), so with no new commands a garrison `g` of planet `pid` whose
destination is a different planet `q` not defended by `g` still carries
destination `q` after the tick, and the tick's departure phase has spawned
a fresh fleet (id `s.nextId`, surviving into the final entity collection)
at the planet's position, with the garrison's team, strength and
destination — including strength-0 fleets once the garrison is empty.
Freshness hypotheses `H8`/`H9` say all fleet references are below the
id counter, as every reachable state satisfies. -/
theorem garrison_destination_persists_and_respawns
    (s s' : GameState) (pid q : PlanetId) (g : FleetId) (rest : List PlanetId)
    (H1 : playerPlanetIds s = pid :: rest)
    (Hg : (s.planet pid).defending_fleet = g)
    (H3 : (s.fleet g).destination = some q)
    (H4 : q ≠ pid)
    (H5 : (s.planet q).defending_fleet ≠ g)
    (H8 : ∀ i, EntityRef.fleet i ∈ s.entities → i < s.nextId)
    (H9 : ∀ p, (s.planet p).defending_fleet < s.nextId)
    (H11 : step s [] = some s') :
    (s'.fleet g).destination = some q ∧
    EntityRef.fleet s.nextId ∈ s'.entities ∧
    s'.fleet s.nextId =
      { team := (s.fleet g).team, position := (s.planet pid).position,
        strength := (s.fleet g).strength, destination := some q } := by
  simp only [step, handle_commands] at H11
  cases hA : handle_already_defending_fleets s with
  | none =>
      rw [hA] at H11
      exact Option.noConfusion H11
  | some sB =>
      simp only [hA] at H11
      obtain ⟨hBe, hBp, hBn, hBf⟩ := alreadyDefendingGo_frame (playerFleetIds s) s sB hA
      have hBdest : (sB.fleet g).destination = some q :=
        alreadyDefendingGo_keep_dest (playerFleetIds s) s sB g q hA H3 H5
      have hPPc : playerPlanetIds sB = pid :: rest := by
        refine (playerPlanetIds_congr sB s hBe ?_).trans H1
        intro p
        unfold GameState.planetTeam
        rw [hBp]
        exact (hBf _).1
      have hgB : (sB.planet pid).defending_fleet = g := by rw [hBp]; exact Hg
      have H9B : ∀ p, (sB.planet p).defending_fleet < sB.nextId := by
        intro p
        rw [hBp, hBn]
        exact H9 p
      simp only [handle_departures, hPPc] at H11
      obtain ⟨hspawn_mem, hspawn_rec⟩ :=
        departuresGo_head_spawn sB pid q g rest hgB hBdest H4 H9B
      have hgN : g < sB.nextId := hgB ▸ H9B pid
      obtain ⟨_, _, hDg0⟩ := departuresGo_fleet_keep (pid :: rest) sB g hgN
      have hDg : (((departuresGo sB (pid :: rest)).1.fleet g)).destination = some q :=
        hDg0.trans hBdest
      have hD1e : (departuresGo sB (pid :: rest)).1.entities = s.entities :=
        (departuresGo_entities _ _).trans hBe
      have hD1p : (departuresGo sB (pid :: rest)).1.planet = s.planet :=
        (departuresGo_planet _ _).trans hBp
      have H9D : ∀ p, ((departuresGo sB (pid :: rest)).1.planet p).defending_fleet
          < s.nextId := by
        intro p
        rw [hD1p]
        exact H9 p
      cases hm : handle_movement (departuresGo sB (pid :: rest)).1 with
      | none =>
          rw [hm] at H11
          exact Option.noConfusion H11
      | some sD =>
          simp only [hm] at H11
          obtain ⟨hMe, hMp, hMn, hMf⟩ :=
            movementGo_frame (playerFleetIds (departuresGo sB (pid :: rest)).1) _ sD hm
          have hMlist : ∀ i ∈ playerFleetIds (departuresGo sB (pid :: rest)).1,
              i < s.nextId := by
            intro i hi
            exact H8 i (hD1e ▸ mem_playerFleetIds _ i hi)
          have hsDdest : (sD.fleet g).destination = some q := (hMf g).2.2.trans hDg
          have hsDj : sD.fleet s.nextId = (departuresGo sB (pid :: rest)).1.fleet s.nextId :=
            movementGo_fleet_ge _ _ sD s.nextId hm hMlist s.nextId (le_refl _)
          have hsDe : sD.entities = s.entities := hMe.trans hD1e
          have H9sD : ∀ p, (sD.planet p).defending_fleet < s.nextId := by
            intro p
            rw [hMp]
            exact H9D p
          have hRlist : ∀ i ∈ playerFleetIds sD, i < s.nextId := by
            intro i hi
            exact H8 i (hsDe ▸ mem_playerFleetIds _ i hi)
          obtain ⟨hRe0, hRp0, hRn0, hRf0⟩ := reinforceGo_frame (playerFleetIds sD) sD
          have hRe : (handle_reinforce sD).1.entities = sD.entities := hRe0
          have hRp : (handle_reinforce sD).1.planet = sD.planet := hRp0
          have hRf : ∀ i, ((handle_reinforce sD).1.fleet i).team = (sD.fleet i).team ∧
              ((handle_reinforce sD).1.fleet i).position = (sD.fleet i).position ∧
              ((handle_reinforce sD).1.fleet i).destination = (sD.fleet i).destination := hRf0
          have hRdest : (((handle_reinforce sD).1.fleet g)).destination = some q :=
            (hRf g).2.2.trans hsDdest
          have hRj : (handle_reinforce sD).1.fleet s.nextId = sD.fleet s.nextId :=
            reinforceGo_fleet_ge (playerFleetIds sD) sD s.nextId H9sD hRlist
              s.nextId (le_refl _)
          have hRmerged : ∀ x ∈ (handle_reinforce sD).2.2, x < s.nextId :=
            fun x hx => hRlist x (reinforceGo_merged_sub _ sD x hx)
          have hRent : (handle_reinforce sD).1.entities = s.entities := hRe.trans hsDe
          have H9R : ∀ p, ((handle_reinforce sD).1.planet p).defending_fleet < s.nextId := by
            intro p
            rw [hRp]
            exact H9sD p
          have hClist : ∀ i ∈ playerFleetIds (handle_reinforce sD).1, i < s.nextId := by
            intro i hi
            exact H8 i (hRent ▸ mem_playerFleetIds _ i hi)
          obtain ⟨H9C, hCdestroyed, hCge⟩ :=
            combatGo_inv (playerFleetIds (handle_reinforce sD).1) (handle_reinforce sD).1
              s.nextId hClist H9R
          have hCdest : (((handle_combat (handle_reinforce sD).1).1.fleet g)).destination
              = some q :=
            ((combatGo_fleet_keep (playerFleetIds (handle_reinforce sD).1) _ g)).2.2.trans
              hRdest
          have hCj : (handle_combat (handle_reinforce sD).1).1.fleet s.nextId
              = (handle_reinforce sD).1.fleet s.nextId :=
            hCge s.nextId (le_refl _)
          have hPdest : ((handle_production
              (handle_combat (handle_reinforce sD).1).1).fleet g).destination = some q :=
            ((productionGo_fleet_keep _ _ g)).2.2.trans hCdest
          have hPj : (handle_production (handle_combat (handle_reinforce sD).1).1).fleet
              s.nextId = (handle_combat (handle_reinforce sD).1).1.fleet s.nextId :=
            productionGo_fleet_ge _ _ s.nextId H9C s.nextId (le_refl _)
          obtain ⟨hfinF, hfinP, hfinN⟩ := removeFleets_frame _ _ _ H11
          have hnotin : s.nextId ∉ (handle_reinforce sD).2.2
              ++ (handle_combat (handle_reinforce sD).1).2 := by
            intro hx
            rcases List.mem_append.mp hx with h | h
            · exact absurd (hRmerged _ h) (lt_irrefl _)
            · exact absurd (hCdestroyed _ h) (lt_irrefl _)
          have hmemH : EntityRef.fleet s.nextId ∈
              (handle_production (handle_combat (handle_reinforce sD).1).1).entities
              ++ (departuresGo sB (pid :: rest)).2.map EntityRef.fleet := by
            refine List.mem_append_right _ ?_
            refine List.mem_map.mpr ⟨s.nextId, ?_, rfl⟩
            rw [hBn] at hspawn_mem
            exact hspawn_mem
          have hmem' : EntityRef.fleet s.nextId ∈ s'.entities :=
            removeFleets_mem _ _ s' s.nextId H11 hmemH hnotin
          have hKrec : (departuresGo sB (pid :: rest)).1.fleet s.nextId =
              { team := (s.fleet g).team, position := (s.planet pid).position,
                strength := (s.fleet g).strength, destination := some q } := by
            rw [← hBn]
            rw [hspawn_rec, (hBf g).1, (hBf g).2.1, hBp]
          refine ⟨?_, hmem', ?_⟩
          · rw [congrFun hfinF g]
            exact hPdest
          · rw [congrFun hfinF s.nextId]
            show (handle_production (handle_combat (handle_reinforce sD).1).1).fleet
              s.nextId = _
            rw [hPj, hCj, hRj, hsDj, hKrec]



/-- Garrison of the C8 witness: strength 7, ordered to planet 1. -/
def gW8 : Fleet := { team := .RED, position := ⟨0, 0⟩, strength := 7, destination := some 1 }
/-- Neutral garrison of planet 1 in the C8 witness. -/
def dW8 : Fleet := { team := .NEUTREAL, position := ⟨4, 0⟩, strength := 10, destination := none }
/-- Planet 0 of the C8 witness, garrisoned by fleet 0. -/
def pW8q : Planet := { position := ⟨0, 0⟩, production_speed := 5, remaining_until_new_ship := 5, defending_fleet := 0 }
/-- Planet 1 of the C8 witness (neutral, 4 units away). -/
def pW8p : Planet := { position := ⟨4, 0⟩, production_speed := 0, remaining_until_new_ship := 9, defending_fleet := 1 }

/-- The C8 witness state. -/
def sW8 : GameState :=
  { entities := [.planet 0, .fleet 0]
    fleet := fun k => if k = 0 then gW8 else if k = 1 then dW8 else fleetFiller
    planet := fun k => if k = 0 then pW8q else pW8p
    nextId := 2 }

theorem w8_dock :
    ((handle_departures sW8).1.fleet 0).can_dock ((handle_departures sW8).1.planet 1) := by
  show Position.distance_to ⟨0, 0⟩ ⟨4, 0⟩ < ((4 : ℤ) : ℝ) + MAX_FLEET_SPEED
  rw [distance_nought_four, MAX_FLEET_SPEED]
  norm_num

theorem w8_mv : handle_movement (handle_departures sW8).1 =
    some ((handle_departures sW8).1) := by
  show movementGo _ [0] = _
  have hd : ((handle_departures sW8).1.fleet 0).destination = some 1 := rfl
  simp only [movementGo, hd]
  rw [if_pos w8_dock]

theorem w8_rf : handle_reinforce ((handle_departures sW8).1) =
    ((handle_departures sW8).1, [], []) := rfl

theorem w8_cb : handle_combat ((handle_departures sW8).1) =
    ((combatHit (handle_departures sW8).1 0 1).1, [0]) := by
  show combatGo _ [0] = _
  have hd : ((handle_departures sW8).1.fleet 0).destination = some 1 := rfl
  simp only [combatGo, hd]
  rw [if_neg (not_not_intro w8_dock)]
  rfl

/-- The state produced by `step sW8 []`, written as the computed pipeline
expression so the step equation holds by kernel reduction. -/
def w8final : GameState :=
  let sG := handle_production (combatHit (handle_departures sW8).1 0 1).1
  let sH : GameState :=
    { sG with entities := sG.entities ++ (handle_departures sW8).2.map EntityRef.fleet }
  { sH with entities := eraseRef sH.entities (.fleet 0) }

theorem w8_step : step sW8 [] = some w8final := by
  have h2 : handle_already_defending_fleets (handle_commands sW8 []) = some sW8 := rfl
  simp only [step, h2, w8_mv, w8_rf, w8_cb]
  rfl

theorem w8_H8 : ∀ i, EntityRef.fleet i ∈ sW8.entities → i < sW8.nextId := by
  intro i hi
  rcases List.mem_cons.mp hi with h | h
  · exact EntityRef.noConfusion h
  · rcases List.mem_cons.mp h with h2 | h2
    · injection h2 with h3
      subst h3
      decide
    · exact absurd h2 (List.not_mem_nil _)

theorem w8_H9 : ∀ p, (sW8.planet p).defending_fleet < sW8.nextId := by
  intro p
  by_cases hp : p = 0
  · subst hp
    decide
  · have h : sW8.planet p = pW8p := by
      show (if p = 0 then pW8q else pW8p) = pW8p
      rw [if_neg hp]
    rw [h]
    decide


/-- Witness for C8: on `sW8` the tick completes, the garrison still aims
at planet 1 and the spawned fleet 2 carries team RED, position (0,0),
strength 7 and destination planet 1. -/
theorem garrison_destination_persists_and_respawns_witness :
    playerPlanetIds sW8 = [0] ∧ step sW8 [] = some w8final ∧
    ((w8final.fleet 0).destination = some 1 ∧
     EntityRef.fleet 2 ∈ w8final.entities ∧
     w8final.fleet 2 =
       { team := (sW8.fleet 0).team
         position := (sW8.planet 0).position
         strength := (sW8.fleet 0).strength
         destination := some 1 }) :=
  ⟨rfl, w8_step,
    garrison_destination_persists_and_respawns sW8 w8final 0 1 0 [] rfl rfl rfl
      (by decide) (by decide) w8_H8 w8_H9 w8_step⟩

end

end Galcon
